import Mathlib

/-!
# Verification of the SQL Query Safety & Correction Pipeline

Shallow embedding of the core of the `enterprise-sql-agent` repository:

* `src/database/tools/sql_injection_patterns.py` (`SQLInjectionDetector`)
* `src/database/tools/secure_sql_tool.py` (`SecureUniversalSQLTool._validate_query_security`)
* `src/database/tools/sql_error_recovery.py` (`SQLErrorRecoveryEngine`)
* `src/database/tools/query_correction_service.py` (`QueryCorrectionService`)
* `src/database/tools/enhanced_sql_tool.py` (`EnhancedUniversalSQLTool._run`)
* `src/utils/semantic_table_selector.py` (`SemanticTableSelector.select_relevant_tables`)

Python strings are embedded as Lean `String`/`List Char`; Python floats
(confidences, similarity scores) are embedded as `ℚ` (all constants involved
are short decimals and every comparison performed by the code distinguishes
values far apart, so rational arithmetic agrees with IEEE doubles on every
comparison the code makes).  Python `re` patterns are embedded via a small
executable regular-expression engine (Brzozowski derivatives extended with
the contextual assertions `^`, `$`, `\b`, `\Z` and single-character negative
lookbehind, resolved against the previous/next character).

## The regex engine

Semantics of `re.search` / `re.match` restricted to the features the embedded
patterns use: literals, character classes, `.`, alternation, concatenation,
`*`, `+`, `?`, the assertions above, with the `re.IGNORECASE` and
`re.MULTILINE` flags.  The engine decides *existence* of a match, which is
the only thing the embedded call sites (`re.search(...)`/`re.match(...)`
used as booleans) observe; greedy vs lazy repetition is irrelevant for
existence.
-/

namespace SqlAgent

/-- Python `\s` (ASCII whitespace as used by the queries in scope). -/
def isPyWs (c : Char) : Bool :=
  c = ' ' || c = '\t' || c = '\n' || c = '\r' || c = '\x0b' || c = '\x0c'

/-- Python `\w` (ASCII word character). -/
def isWordChar (c : Char) : Bool :=
  ('a' ≤ c && c ≤ 'z') || ('A' ≤ c && c ≤ 'Z') || ('0' ≤ c && c ≤ '9') || c = '_'

/-- Python `\d`. -/
def isDigitChar (c : Char) : Bool :=
  '0' ≤ c && c ≤ '9'

/-- Case-insensitive-capable character comparison (`re.IGNORECASE`). -/
def cmatchChar (ci : Bool) (p c : Char) : Bool :=
  if ci then p.toLower = c.toLower else p = c

/-- A primitive member of a character class. -/
inductive CSet
  | ws                        -- `\s`
  | word                      -- `\w`
  | digit                     -- `\d`
  | ch (c : Char)             -- a literal character
  | range (lo hi : Char)      -- e.g. `a-f` (only used with both cases listed)
deriving DecidableEq, Repr

/-- Membership of a character in one primitive class member. -/
def CSet.mem (ci : Bool) (c : Char) : CSet → Bool
  | .ws => isPyWs c
  | .word => isWordChar c
  | .digit => isDigitChar c
  | .ch d => cmatchChar ci d c
  | .range lo hi => lo ≤ c && c ≤ hi

/-- Regular expressions over characters, with contextual assertions. -/
inductive Regex
  | emp                               -- matches nothing
  | eps                               -- empty string
  | chr (c : Char)                    -- literal character
  | cls (neg : Bool) (sets : List CSet) -- `[...]` / `[^...]`
  | dot                               -- `.` (anything but newline)
  | cat (r1 r2 : Regex)
  | alt (r1 r2 : Regex)
  | star (r : Regex)
  | bol                               -- `^` with re.MULTILINE
  | eol                               -- `$` with re.MULTILINE
  | eos                               -- `$` without re.MULTILINE / `\Z`
  | wordB                             -- `\b`
  | notPrev (c : Char)                -- `(?<!c)` single-character lookbehind
  | lazyStar (r : Regex)              -- `*?` (same language as `star`;
                                      --  only match *ends* differ)
deriving DecidableEq, Repr

namespace Regex

/-- Is the character at an (optional) position a word character? -/
def optWord (o : Option Char) : Bool :=
  match o with
  | none => false
  | some c => isWordChar c

/-- Nullability relative to the surrounding context: `prev` is the character
just before the current position, `next` the one at it.  This is what lets
the zero-width assertions be decided locally. -/
def nullableAt (prev next : Option Char) : Regex → Bool
  | .emp => false
  | .eps => true
  | .chr _ => false
  | .cls _ _ => false
  | .dot => false
  | .cat r1 r2 => nullableAt prev next r1 && nullableAt prev next r2
  | .alt r1 r2 => nullableAt prev next r1 || nullableAt prev next r2
  | .star _ => true
  | .bol => prev = none || prev = some '\n'
  | .eol => next = none || next = some '\n'
  | .eos => next = none
  | .wordB => optWord prev ≠ optWord next
  | .notPrev c => prev ≠ some c
  | .lazyStar _ => true

/-- Smart alternation (keeps derivative terms small). -/
def altS : Regex → Regex → Regex
  | .emp, r => r
  | r, .emp => r
  | r1, r2 => .alt r1 r2

/-- Smart concatenation (keeps derivative terms small). -/
def catS : Regex → Regex → Regex
  | .emp, _ => .emp
  | _, .emp => .emp
  | .eps, r => r
  | r, .eps => r
  | r1, r2 => .cat r1 r2

/-- Brzozowski derivative by character `c`, where `prev` is the character
just before `c` (needed for assertions nested at the front of the regex). -/
def deriv (ci : Bool) (prev : Option Char) (c : Char) : Regex → Regex
  | .emp => .emp
  | .eps => .emp
  | .chr d => if cmatchChar ci d c then .eps else .emp
  | .cls neg sets =>
      if (sets.any (CSet.mem ci c)) ≠ neg then .eps else .emp
  | .dot => if c = '\n' then .emp else .eps
  | .cat r1 r2 =>
      altS (catS (deriv ci prev c r1) r2)
        (if nullableAt prev (some c) r1 then deriv ci prev c r2 else .emp)
  | .alt r1 r2 => altS (deriv ci prev c r1) (deriv ci prev c r2)
  | .star r => catS (deriv ci prev c r) (.star r)
  | .bol => .emp
  | .eol => .emp
  | .eos => .emp
  | .wordB => .emp
  | .notPrev _ => .emp
  | .lazyStar r => catS (deriv ci prev c r) (.lazyStar r)

/-- A size measure, used to compute a sufficient backtracking-depth fuel. -/
def rsize : Regex → Nat
  | .emp | .eps | .chr _ | .cls _ _ | .dot
  | .bol | .eol | .eos | .wordB | .notPrev _ => 1
  | .cat r1 r2 | .alt r1 r2 => rsize r1 + rsize r2 + 1
  | .star r | .lazyStar r => rsize r + 1

end Regex

/-- Does some prefix of `cs` match `r`, with `prev` the character just before
the current position? -/
def pmatch (ci : Bool) : Regex → Option Char → List Char → Bool
  | r, prev, cs =>
      r.nullableAt prev cs.head? ||
        match cs with
        | [] => false
        | c :: cs' => pmatch ci (r.deriv ci prev c) (some c) cs'

/-- Does `r` match starting at some position of `cs` (`re.search`)? -/
def rsearch (ci : Bool) (r : Regex) : Option Char → List Char → Bool
  | prev, [] => pmatch ci r prev []
  | prev, c :: cs => pmatch ci r prev (c :: cs) || rsearch ci r (some c) cs

/-- `re.search(pattern, s, flags)` as a boolean. -/
def reSearch (ci : Bool) (r : Regex) (s : String) : Bool :=
  rsearch ci r none s.data

/-- `re.match(pattern, s, flags)` as a boolean (anchored at the start). -/
def reMatch (ci : Bool) (r : Regex) (s : String) : Bool :=
  pmatch ci r none s.data

/-! Convenience builders used to transcribe the Python patterns. -/

/-- Literal string. -/
def rlit (s : String) : Regex :=
  s.data.foldr (fun c r => .cat (.chr c) r) .eps

/-- Concatenation of a list of regexes. -/
def rcat (l : List Regex) : Regex :=
  l.foldr .cat .eps

/-- Alternation of a list of regexes (`(?:a|b|c)`); empty list matches nothing. -/
def ralts : List Regex → Regex
  | [] => .emp
  | [r] => r
  | r :: rs => .alt r (ralts rs)

/-- Alternation of literal words. -/
def rwords (l : List String) : Regex :=
  ralts (l.map rlit)

/-- `\s` -/
def rws : Regex := .cls false [.ws]
/-- `\s*` -/
def rwsS : Regex := .star rws
/-- `\s+` -/
def rwsP : Regex := .cat rws rwsS
/-- `\w` -/
def rwc : Regex := .cls false [.word]
/-- `\w+` -/
def rwP : Regex := .cat rwc (.star rwc)
/-- `\d` -/
def rdig : Regex := .cls false [.digit]
/-- `\d+` -/
def rdigP : Regex := .cat rdig (.star rdig)
/-- `.*` -/
def rdotS : Regex := .star .dot
/-- `r?` -/
def ropt (r : Regex) : Regex := .alt r .eps
/-- `r+` -/
def rplus (r : Regex) : Regex := .cat r (.star r)

/-!
## Preference-ordered backtracking (match ends)

`re.finditer` is observable in the source through *match counts* (each match
of each pattern contributes one entry to `detect_injection_patterns`'s result
and hence one summand to the risk score).  Counting non-overlapping matches
needs the *end* of each match under Python's preference order (leftmost
start; alternation prefers the left branch; `*` is greedy, `*?` lazy).
`mEnd` returns, for a match starting at the current position, the
preferred (previous character, remaining suffix) after the match, exploring
alternatives in Python's preference order.  `fuel` bounds the recursion
depth; callers pass a depth that is amply sufficient for the patterns and
strings in scope. -/
def mEnd (ci : Bool) :
    Nat → Regex → Option Char → List Char →
    (Option Char → List Char → Option (Option Char × List Char)) →
    Option (Option Char × List Char)
  | 0, _, _, _, _ => none
  | _ + 1, .emp, _, _, _ => none
  | _ + 1, .eps, prev, cs, k => k prev cs
  | _ + 1, .chr d, _, cs, k =>
      match cs with
      | [] => none
      | c :: cs' => if cmatchChar ci d c then k (some c) cs' else none
  | _ + 1, .cls neg sets, _, cs, k =>
      match cs with
      | [] => none
      | c :: cs' => if (sets.any (CSet.mem ci c)) ≠ neg then k (some c) cs' else none
  | _ + 1, .dot, _, cs, k =>
      match cs with
      | [] => none
      | c :: cs' => if c = '\n' then none else k (some c) cs'
  | fuel + 1, .cat r1 r2, prev, cs, k =>
      mEnd ci fuel r1 prev cs (fun p' cs' => mEnd ci fuel r2 p' cs' k)
  | fuel + 1, .alt r1 r2, prev, cs, k =>
      (mEnd ci fuel r1 prev cs k).orElse (fun _ => mEnd ci fuel r2 prev cs k)
  | fuel + 1, .star r, prev, cs, k =>
      (mEnd ci fuel r prev cs (fun p' cs' =>
        if cs'.length < cs.length then mEnd ci fuel (.star r) p' cs' k
        else none)).orElse (fun _ => k prev cs)
  | fuel + 1, .lazyStar r, prev, cs, k =>
      (k prev cs).orElse (fun _ =>
        mEnd ci fuel r prev cs (fun p' cs' =>
          if cs'.length < cs.length then mEnd ci fuel (.lazyStar r) p' cs' k
          else none))
  | _ + 1, .bol, prev, cs, k =>
      if prev = none || prev = some '\n' then k prev cs else none
  | _ + 1, .eol, prev, cs, k =>
      if cs.head? = none || cs.head? = some '\n' then k prev cs else none
  | _ + 1, .eos, prev, cs, k =>
      if cs.isEmpty then k prev cs else none
  | _ + 1, .wordB, prev, cs, k =>
      if Regex.optWord prev ≠ Regex.optWord cs.head? then k prev cs else none
  | _ + 1, .notPrev c, prev, cs, k =>
      if prev ≠ some c then k prev cs else none

/-- Fuel amply covering the backtracking depth of `mEnd` for pattern `r`
on input `cs`. -/
def matchFuel (r : Regex) (cs : List Char) : Nat :=
  (r.rsize + 2) * (cs.length + 2)

/-- The preferred match at exactly the current position, if any. -/
def matchHere (ci : Bool) (r : Regex) (prev : Option Char) (cs : List Char) :
    Option (Option Char × List Char) :=
  mEnd ci (matchFuel r cs) r prev cs (fun p' cs' => some (p', cs'))

/-- Number of non-overlapping matches, scanning left to right
(`len(re.findall(...))` / the number of `re.finditer` hits). -/
def fiCountAux (ci : Bool) (r : Regex) :
    Nat → Option Char → List Char → Nat
  | 0, _, _ => 0
  | fuel + 1, prev, cs =>
      match matchHere ci r prev cs with
      | some (p', rest) =>
          if rest.length == cs.length then
            -- zero-width match: count it and advance one character
            1 + (match cs with
                 | [] => 0
                 | c :: cs' => fiCountAux ci r fuel (some c) cs')
          else 1 + fiCountAux ci r fuel p' rest
      | none =>
          match cs with
          | [] => 0
          | c :: cs' => fiCountAux ci r fuel (some c) cs'

/-- `len(re.findall(pattern, s, flags))`. -/
def fiCount (ci : Bool) (r : Regex) (s : String) : Nat :=
  fiCountAux ci r (s.data.length + 1) none s.data

end SqlAgent

namespace SqlAgent

-- Sanity checks for the engine (kept as `example`s, they are part of the
-- development's own test surface).
example : reSearch true (rlit "drop") "SELECT; DROP TABLE x" = true := by decide
example : reSearch true (rlit "drop") "SELECT 1" = false := by decide
example : reSearch true (rcat [rlit "a", rwsP, rlit "b"]) "A   b" = true := by decide
example : reSearch false (rcat [.wordB, rlit "JOIN", .wordB]) "AJOIN JOIN" = true := by decide
example : reSearch false (rcat [.wordB, rlit "JOIN", .wordB]) "AJOINB" = false := by decide
example : reMatch true (rcat [rlit "ab", .eos]) "ab" = true := by decide
example : reMatch true (rcat [rlit "ab", .eos]) "abc" = false := by decide
example : reSearch true (rcat [rlit "--", rdotS, .eol]) "x -- c\ny" = true := by decide
example : reSearch true (.cat (rlit "a") (.cat rdotS (rlit "b"))) "a\nb" = false := by decide

-- finditer counts: non-overlapping scan, greedy vs lazy ends
example : fiCount false (rcat [.wordB, rlit "JOIN", .wordB]) "JOIN x JOIN yJOIN" = 2 := by decide
example : fiCount true (rcat [rlit "/*", .lazyStar .dot, rlit "*/"]) "/*a*/ y /*b*/" = 2 := by decide
example : fiCount true (rcat [rlit "/*", rdotS, rlit "*/"]) "/*a*/ y /*b*/" = 1 := by decide
example : fiCount true (rcat [rlit "--", rdotS, .eol]) "a -- one\nb -- two" = 2 := by decide

/-!
## `SQLInjectionDetector` (`sql_injection_patterns.py`)

Risk levels are embedded as the literal strings the source uses
(`"safe" / "low" / "medium" / "high" / "critical"`).  `query_preview`,
`patterns_by_category` and the report's advisory `recommendations` are
presentational and consumed by no embedded component; they are omitted.
-/

/-- One entry of a pattern table: regex, description, risk level, category. -/
structure SecurityPattern where
  regex : Regex
  description : String
  risk_level : String
  category : String
deriving Repr

/-- `str.strip()` for the whitespace set Python uses on ASCII text. -/
def pyStrip (s : String) : String :=
  ⟨((s.data.dropWhile (fun c => isPyWs c)).reverse.dropWhile
      (fun c => isPyWs c)).reverse⟩

/-- Is the first list a prefix of the second? -/
def isPrefixL : List Char → List Char → Bool
  | [], _ => true
  | _ :: _, [] => false
  | a :: as, b :: bs => a = b && isPrefixL as bs

/-- Does `needle` occur contiguously inside `hay`? -/
def isInfixL (needle : List Char) : List Char → Bool
  | [] => isPrefixL needle []
  | c :: cs => isPrefixL needle (c :: cs) || isInfixL needle cs

/-- Substring containment (`needle in hay` on Python strings). -/
def strContains (hay needle : String) : Bool :=
  isInfixL needle.data hay.data

/-- `str.upper()` (ASCII). -/
def pyUpper (s : String) : String :=
  ⟨s.data.map Char.toUpper⟩

/-- `str.startswith(prefix)`. -/
def pyStartsWith (s pre : String) : Bool :=
  isPrefixL pre.data s.data

/-!
Rational arithmetic used by the embedding.  In this development division
and multiplication of `ℚ` are spelled through `mkRat` (`ratDivC`,
`ratMul`), which the kernel evaluates on concrete inputs; `ratMul_eq`
below proves `ratMul` equal to `*`, and `ratDivC` agrees with `/` (both
are the normalized quotient, and both send a zero denominator to 0).
Likewise `strLtB` is the executable code-point comparison of strings
(Python's `<` on `str`).
-/

/-- `p * q` on `ℚ`, computably. -/
def ratMul (p q : ℚ) : ℚ :=
  mkRat (p.num * q.num) (p.den * q.den)

/-- `p / q` on `ℚ`, computably (0 when `q = 0`, as in `ℚ`). -/
def ratDivC (p q : ℚ) : ℚ :=
  let n := p.num * (q.den : Int)
  let d := (p.den : Int) * q.num
  if d < 0 then mkRat (-n) (-d).toNat else mkRat n d.toNat

/-- Lexicographic code-point comparison (Python `str.__lt__`). -/
def strLtL : List Char → List Char → Bool
  | [], [] => false
  | [], _ :: _ => true
  | _ :: _, [] => false
  | a :: as, b :: bs =>
      if a.toNat < b.toNat then true
      else if b.toNat < a.toNat then false
      else strLtL as bs

/-- String-level wrapper for `strLtL`. -/
def strLtB (a b : String) : Bool :=
  strLtL a.data b.data

/-- The `_initialize_patterns` table, flattened in source (insertion) order:
categories classic_injection, union_injection, blind_injection,
time_injection, error_injection, second_order, nosql_injection,
code_execution, file_access, info_disclosure, obfuscation,
encoding_evasion. -/
def injectionPatterns : List SecurityPattern := [
  -- classic_injection
  ⟨rcat [rwords ["OR", "AND"], rwsP,
      ralts [rcat [rlit "'1'", rwsS, rlit "=", rwsS, rlit "'1'"],
             rcat [rlit "1", rwsS, rlit "=", rwsS, rlit "1"],
             rcat [rlit "'a'", rwsS, rlit "=", rwsS, rlit "'a'"]]],
   "Classic tautology-based SQL injection", "critical", "injection"⟩,
  ⟨rcat [rlit "'", rwsS, rwords ["OR", "AND"], rwsP, rwP, rwsS,
      rwords ["LIKE", "="], rwsS, rlit "'%"],
   "Wildcard injection pattern", "high", "injection"⟩,
  ⟨rcat [ralts [.bol, rlit ";", rws],
      rwords ["DROP", "DELETE", "UPDATE", "INSERT", "ALTER", "CREATE"], rwsP],
   "Statement termination with dangerous command", "critical", "injection"⟩,
  -- union_injection
  ⟨rcat [rlit "UNION", rwsP, ropt (rcat [rlit "ALL", rwsP]), rlit "SELECT"],
   "UNION-based SQL injection attempt", "critical", "injection"⟩,
  ⟨rcat [rlit "UNION", rwsP, ropt (rcat [rlit "ALL", rwsP]), rlit "SELECT",
      rdotS, ralts [rlit "--", rlit "#", rlit "/*"]],
   "UNION injection with comment obfuscation", "critical", "injection"⟩,
  ⟨rcat [rlit "'", rwsS, rlit "UNION", rwsP, rlit "SELECT", rwsP,
      rwords ["CONCAT", "GROUP_CONCAT"]],
   "UNION injection with string concatenation", "critical", "injection"⟩,
  -- blind_injection
  ⟨rcat [rwords ["AND", "OR"], rwsP, rdigP, rwsS,
      rplus (.cls false [.ch '<', .ch '>', .ch '=', .ch '!']), rwsS, rdigP],
   "Boolean-based blind SQL injection", "high", "injection"⟩,
  ⟨rcat [rwords ["AND", "OR"], rwsP, rwords ["ASCII", "ORD", "CHAR"], rwsS,
      rlit "("],
   "Character-based blind injection", "high", "injection"⟩,
  ⟨rcat [rwords ["AND", "OR"], rwsP, rwords ["LENGTH", "LEN", "CHAR_LENGTH"],
      rwsS, rlit "("],
   "Length-based blind injection", "high", "injection"⟩,
  -- time_injection
  ⟨rcat [rwords ["SLEEP", "WAITFOR", "BENCHMARK", "pg_sleep"], rwsS,
      rlit "(", rwsS, rdigP],
   "Time-based SQL injection", "critical", "injection"⟩,
  ⟨rcat [rlit "IF", rwsS, rlit "(", .star (.cls true [.ch ')']), rlit ",",
      rwsS, rwords ["SLEEP", "WAITFOR", "BENCHMARK"]],
   "Conditional time-based injection", "critical", "injection"⟩,
  -- error_injection
  ⟨rcat [rwords ["AND", "OR"], rwsP, rwords ["EXTRACTVALUE", "UPDATEXML"],
      rwsS, rlit "("],
   "XML function-based error injection", "high", "injection"⟩,
  ⟨rcat [rwords ["AND", "OR"], rwsP, rwords ["EXP", "FLOOR", "RAND"], rwsS,
      rlit "(", .star (.cls true [.ch ')']), rlit ")"],
   "Mathematical function-based error injection", "high", "injection"⟩,
  ⟨rcat [rlit "CAST", rwsS, rlit "(", .star (.cls true [.ch ')']), rlit "AS",
      rwsP, rwords ["INT", "INTEGER", "DECIMAL"], rwsS, rlit ")"],
   "Type casting error injection", "medium", "injection"⟩,
  -- second_order
  ⟨rcat [rwords ["INSERT", "UPDATE"], rdotS, rlit "VALUES", rdotS,
      rwords ["CONCAT", "CHR", "CHAR"], rwsS, rlit "("],
   "Potential second-order injection via data insertion", "medium",
   "injection"⟩,
  -- nosql_injection
  ⟨rcat [rlit "$",
      rwords ["ne", "gt", "lt", "gte", "lte", "in", "nin", "regex", "where"]],
   "MongoDB operator injection", "high", "nosql_injection"⟩,
  ⟨ralts [rlit "this.", rcat [rlit "function", rwsS, rlit "("]],
   "JavaScript injection in NoSQL", "high", "nosql_injection"⟩,
  -- code_execution
  ⟨rcat [rwords ["EXEC", "EXECUTE", "EVAL"], rwsS, rlit "("],
   "Code execution function", "critical", "execution"⟩,
  ⟨rcat [rwords ["xp_", "sp_"], rwP],
   "SQL Server extended/stored procedure", "critical", "execution"⟩,
  ⟨rwords ["OPENROWSET", "OPENDATASOURCE", "OPENXML", "BULK"],
   "External data access function", "critical", "execution"⟩,
  -- file_access
  ⟨ralts [rlit "LOAD_FILE",
      rcat [rlit "INTO", rwsP, rwords ["OUTFILE", "DUMPFILE"]],
      rcat [rlit "LOAD", rwsP, rlit "DATA"]],
   "File system access function", "critical", "file_access"⟩,
  ⟨rwords ["FILE_PRIV", "FILE_PRIVILEGES"],
   "File privilege check", "high", "file_access"⟩,
  -- info_disclosure
  ⟨rcat [ralts [rlit "@@", rlit "GLOBAL.", rlit "SESSION."], rwP],
   "System variable access", "medium", "disclosure"⟩,
  ⟨rcat [rwords ["USER", "CURRENT_USER", "SESSION_USER", "SYSTEM_USER"],
      rwsS, rlit "(", rwsS, rlit ")"],
   "User information function", "low", "disclosure"⟩,
  ⟨rcat [rwords ["DATABASE", "SCHEMA", "VERSION", "CONNECTION_ID"], rwsS,
      rlit "(", rwsS, rlit ")"],
   "Database information function", "low", "disclosure"⟩,
  -- obfuscation
  ⟨rcat [rlit "/*", .lazyStar .dot, rlit "*/"],
   "Block comment (potential obfuscation)", "medium", "obfuscation"⟩,
  ⟨rcat [rlit "--", rdotS, .eol],
   "Line comment (potential obfuscation)", "low", "obfuscation"⟩,
  ⟨rcat [rlit "#", rdotS, .eol],
   "Hash comment (MySQL)", "low", "obfuscation"⟩,
  -- encoding_evasion
  ⟨ralts [rcat [rlit "0x",
        rplus (.cls false [.range '0' '9', .range 'a' 'f', .range 'A' 'F'])],
      rcat [rlit "UNHEX", rwsS, rlit "("], rcat [rlit "HEX", rwsS, rlit "("]],
   "Hexadecimal encoding", "medium", "evasion"⟩,
  ⟨rcat [rwords ["CHAR", "CHR", "ASCII"], rwsS, rlit "(", rwsS, rdigP],
   "Character code encoding", "medium", "evasion"⟩,
  ⟨rcat [rwords ["CONVERT", "CAST"], rwsS, rlit "(", .star (.cls true [.ch ')']),
      rlit "USING", rwsP, rwP],
   "Character set conversion", "low", "evasion"⟩]

/-- One detected pattern instance (the fields of
`detect_injection_patterns`'s dicts that the pipeline consumes). -/
structure DetectedPattern where
  category : String
  description : String
  risk_level : String
deriving Repr, DecidableEq

/-- `detect_injection_patterns(query)`: every pattern is run with
`re.finditer` over the stripped query (flags `IGNORECASE | MULTILINE`);
one entry is recorded per match. -/
def detect_injection_patterns (query : String) : List DetectedPattern :=
  let q := pyStrip query
  injectionPatterns.flatMap (fun p =>
    List.replicate (fiCount true p.regex q)
      ⟨p.category, p.description, p.risk_level⟩)

/-- The `_initialize_whitelist` patterns (used with `re.match`, IGNORECASE,
no MULTILINE; a trailing `$` is rendered as `\n?` followed by end-of-input,
which is exactly Python's single-line `$`). -/
def whitelistPatterns : List Regex := [
  rcat [.bol, rlit "SELECT", rwsP, ropt (rcat [rlit "DISTINCT", rwsP]),
    rplus (.cls false [.word, .ws, .ch ',', .ch '.', .ch '(', .ch ')']),
    rwsP, rlit "FROM", rwsP, rwP,
    ropt (rcat [rwsP, rlit "WHERE", rwsP,
      rplus (.cls false [.word, .ws, .ch '=', .ch '<', .ch '>', .ch '!',
        .ch '\'', .ch ',', .ch '.', .ch '(', .ch ')'])]),
    ropt (rcat [rwsP, rlit "GROUP", rwsP, rlit "BY", rwsP,
      rplus (.cls false [.word, .ws, .ch ','])]),
    ropt (rcat [rwsP, rlit "ORDER", rwsP, rlit "BY", rwsP,
      rplus (.cls false [.word, .ws, .ch ','])]),
    ropt (rcat [rwsP, rlit "LIMIT", rwsP, rdigP]),
    ropt (rlit ";"), ropt (.chr '\n'), .eos],
  rcat [.bol, rlit "DESCRIBE", rwsP, rwP, ropt (rlit ";"),
    ropt (.chr '\n'), .eos],
  rcat [.bol, rlit "SHOW", rwsP, rwords ["TABLES", "COLUMNS", "INDEX"],
    ropt (rlit ";"), ropt (.chr '\n'), .eos],
  rcat [.bol, rlit "EXPLAIN", rwsP, rlit "SELECT", rwsP, rdotS,
    ropt (.chr '\n'), .eos]]

/-- `is_whitelisted(query)`. -/
def is_whitelisted (query : String) : Bool :=
  whitelistPatterns.any (fun p => reMatch true p (pyStrip query))

/-- The per-severity weights of `calculate_risk_score`
(`risk_scores.get(risk_level, 0)`). -/
def riskWeight (risk_level : String) : Nat :=
  if risk_level = "critical" then 100
  else if risk_level = "high" then 75
  else if risk_level = "medium" then 50
  else if risk_level = "low" then 25
  else 0

/-- The `max_risk_level` update chain inside `calculate_risk_score`'s loop. -/
def bumpRiskLevel (cur risk_level : String) : String :=
  if risk_level = "critical" then "critical"
  else if risk_level = "high" ∧ cur ∉ ["critical"] then "high"
  else if risk_level = "medium" ∧ cur ∉ ["critical", "high"] then "medium"
  else if risk_level = "low" ∧ cur = "safe" then "low"
  else cur

/-- `calculate_risk_score(detected_patterns) -> (risk_score, risk_level)`. -/
def calculate_risk_score (detected : List DetectedPattern) : Nat × String :=
  if detected = [] then (0, "safe")
  else
    let acc := detected.foldl
      (fun (acc : Nat × String) p =>
        (acc.1 + riskWeight p.risk_level, bumpRiskLevel acc.2 p.risk_level))
      (0, "safe")
    (min acc.1 100, acc.2)

/-- The fields of `generate_security_report` that the pipeline consumes. -/
structure InjectionReport where
  risk_score : Nat
  risk_level : String
  is_whitelisted : Bool
  patterns_detected : Nat
  detailed_patterns : List DetectedPattern
  safe_to_execute : Bool
deriving Repr

/-- `generate_security_report(query)`. -/
def generate_security_report (query : String) : InjectionReport :=
  let detected := detect_injection_patterns query
  let rs := calculate_risk_score detected
  { risk_score := rs.1
    risk_level := rs.2
    is_whitelisted := is_whitelisted query
    patterns_detected := detected.length
    detailed_patterns := detected
    safe_to_execute :=
      rs.1 < 75 && !(detected.any (fun p => p.risk_level = "critical")) }

/-!
## `SecureUniversalSQLTool._validate_query_security` (`secure_sql_tool.py`)

The report's `query_hash` (an MD5 prefix) and `timestamp` (wall clock) are
outside the embedding's scope and consumed by no validation logic; they are
omitted.  The length check compares against
`_security_rules["required_constraints"]["max_query_length"]` while the
message prints `self._max_query_length`; both are 5000 by default and are
embedded as the single field `maxQueryLength`.
-/

/-- The tool's security configuration (constructor defaults). -/
structure SecurityConfig where
  maxQueryLength : Nat
  requireLimit : Bool
  maxLimitValue : Nat
  maxJoins : Nat
  maxSubqueries : Nat
deriving Repr

/-- The defaults: `max_query_length=5000`, `require_limit=True`,
`max_limit_value=1000`, `max_joins=5`, `max_subqueries=3`. -/
def defaultSecurityConfig : SecurityConfig := ⟨5000, true, 1000, 5, 3⟩

/-- The consolidated security report (fields consumed by the pipeline). -/
structure SecurityReport where
  is_safe : Bool
  violations : List String
  warnings : List String
  risk_level : String
  recommendations : List String
deriving Repr, DecidableEq

/-- The report as initialized at the top of `_validate_query_security`. -/
def initialReport : SecurityReport := ⟨true, [], [], "low", []⟩

/-- The first `critical_violations` rule's regex:
`;\s*(DROP|DELETE|UPDATE|INSERT|ALTER|CREATE|TRUNCATE|REPLACE)\s+`. -/
def critDmlRegex : Regex :=
  rcat [rlit ";", rwsS,
    rwords ["DROP", "DELETE", "UPDATE", "INSERT", "ALTER", "CREATE",
            "TRUNCATE", "REPLACE"], rwsP]

/-- The `critical_violations` rule table (auto-block). -/
def criticalViolationRules : List (Regex × String) := [
  (critDmlRegex,
   "DML/DDL operations not allowed"),
  (rcat [rlit "UNION", rwsP, ropt (rcat [rlit "ALL", rwsP]), rlit "SELECT",
      rdotS, ralts [rlit "--", rlit "#", rlit "/*"]],
   "SQL injection attempt via UNION with comments"),
  (rcat [rwords ["EXEC", "EXECUTE", "EVAL"], rwsS, rlit "("],
   "Code execution functions not allowed"),
  (rcat [rwords ["xp_", "sp_"], rwP],
   "SQL Server extended/stored procedures not allowed"),
  (ralts [rlit "LOAD_FILE",
      rcat [rlit "INTO", rwsP, rwords ["OUTFILE", "DUMPFILE"]],
      rcat [rlit "LOAD", rwsP, rlit "DATA"]],
   "File system operations not allowed"),
  (rwords ["OPENROWSET", "OPENDATASOURCE", "OPENXML"],
   "External data access functions not allowed")]

/-- The `medium_violations` rule table: (regex, description, risk_level). -/
def mediumViolationRules : List (Regex × String × String) := [
  (ralts [rcat [rlit "/*", .lazyStar .dot, rlit "*/"],
          rcat [rlit "--", rdotS, .eol]],
   "SQL comments detected (potential obfuscation)", "medium"),
  (rcat [rlit "UNION", rwsP, ropt (rcat [rlit "ALL", rwsP]), rlit "SELECT"],
   "UNION operations require careful review", "medium"),
  (rcat [rwords ["CONCAT", "GROUP_CONCAT", "STRING_AGG"], rwsS, rlit "(",
      .star (.cls true [.ch ')']), rlit "SELECT"],
   "Nested SELECT in string functions", "medium"),
  (rcat [rwords ["SLEEP", "WAITFOR", "BENCHMARK"], rwsS, rlit "("],
   "Time-based functions (potential DoS)", "medium")]

/-- The `performance_violations` rule table: (regex, description, risk_level). -/
def performanceViolationRules : List (Regex × String × String) := [
  (rcat [rlit "SELECT", rwsP, rlit "*", rwsP, rlit "FROM", rwsP, rwP,
      ropt (rcat [rwsP,
        rwords ["JOIN", "WHERE", "GROUP", "ORDER", "HAVING", "LIMIT"]]),
      .eol],
   "SELECT * without specific column selection", "low"),
  (rcat [rlit "WHERE", rwsP,
      .star (.cls true [.ch '=', .ch '<', .ch '>', .ch '!']), rwsS, rlit "=",
      rwsS, .star (.cls true [.ch '=', .ch '<', .ch '>', .ch '!']), rwsP,
      rlit "OR", rwsP, rlit "1", rwsS, rlit "=", rwsS, rlit "1"],
   "Always-true conditions (potential injection)", "high")]

/-- The `suspicious_functions` list. -/
def suspiciousFunctions : List String :=
  ["CHAR", "CHR", "ASCII", "UNHEX", "HEX",
   "LOAD_FILE", "FILE_PRIV", "DUMPFILE",
   "SCRIPT", "SHELL", "SYSTEM",
   "BENCHMARK", "SLEEP", "WAITFOR",
   "USER", "DATABASE", "VERSION", "CONNECTION_ID"]

/-- Validation step 2: advanced injection detection.  Critical/high findings
become violations and set the risk level and `is_safe`; medium/low findings
become warnings unconditionally. -/
def vStepInjection (q : String) (r : SecurityReport) : SecurityReport :=
  let rep := generate_security_report q
  let r :=
    if !rep.safe_to_execute then
      { r with
        violations := r.violations ++
          ((rep.detailed_patterns.filter
              (fun p => p.risk_level = "critical" || p.risk_level = "high")).map
            (fun p => "SQL injection pattern detected: " ++ p.description))
        risk_level := rep.risk_level
        is_safe := false }
    else r
  { r with
    warnings := r.warnings ++
      ((rep.detailed_patterns.filter
          (fun p => p.risk_level = "medium" || p.risk_level = "low")).map
        (fun p => "Potential issue: " ++ p.description)) }

/-- Validation step 3: maximum query length. -/
def vStepLength (cfg : SecurityConfig) (q : String) (r : SecurityReport) :
    SecurityReport :=
  if q.data.length > cfg.maxQueryLength then
    { r with
      violations := r.violations ++
        ["Query length exceeds " ++ toString cfg.maxQueryLength ++
         " characters"]
      risk_level := "medium"
      is_safe := false }
  else r

/-- One iteration of validation step 4's loop over `critical_violations`. -/
def critStep (q : String) (r : SecurityReport) (rule : Regex × String) :
    SecurityReport :=
  if reSearch true rule.1 q then
    { r with violations := r.violations ++ [rule.2]
             risk_level := "critical"
             is_safe := false }
  else r

/-- Validation step 4: the `critical_violations` rules (auto-block). -/
def vStepCritical (q : String) (r : SecurityReport) : SecurityReport :=
  criticalViolationRules.foldl (critStep q) r

/-- One iteration of validation step 5's loop over `medium_violations`. -/
def mediumStep (q : String) (r : SecurityReport)
    (rule : Regex × String × String) : SecurityReport :=
  if reSearch true rule.1 q then
    let r :=
      if rule.2.2 = "high" then
        { r with violations := r.violations ++ [rule.2.1]
                 is_safe := false }
      else { r with warnings := r.warnings ++ [rule.2.1] }
    if r.risk_level = "low" then { r with risk_level := rule.2.2 } else r
  else r

/-- Validation step 5: the `medium_violations` rules. -/
def vStepMedium (q : String) (r : SecurityReport) : SecurityReport :=
  mediumViolationRules.foldl (mediumStep q) r

/-- One iteration of validation step 6's loop over `performance_violations`. -/
def perfStep (q : String) (r : SecurityReport)
    (rule : Regex × String × String) : SecurityReport :=
  if reSearch true rule.1 q then
    if rule.2.2 = "high" then
      { r with violations := r.violations ++ [rule.2.1]
               is_safe := false }
    else
      { r with warnings := r.warnings ++ [rule.2.1]
               recommendations := r.recommendations ++
                 ["Consider optimizing query performance"] }
  else r

/-- Validation step 6: the `performance_violations` rules. -/
def vStepPerformance (q : String) (r : SecurityReport) : SecurityReport :=
  performanceViolationRules.foldl (perfStep q) r

/-- The suspicious functions found in the uppercased query
(`re.search(rf'\b{func}\s*\(', sql_upper)`, in list order). -/
def suspiciousFound (up : String) : List String :=
  suspiciousFunctions.filter (fun f =>
    reSearch false (rcat [.wordB, rlit f, rwsS, rlit "("]) up)

/-- Validation step 7: suspicious functions.  More than two hits bump the
risk level to `"medium"` — unconditionally overwriting it. -/
def vStepSuspicious (up : String) (r : SecurityReport) : SecurityReport :=
  let found := suspiciousFound up
  if found ≠ [] then
    let r := { r with warnings := r.warnings ++
      ["Suspicious functions detected: " ++ String.intercalate ", " found] }
    if found.length > 2 then { r with risk_level := "medium" } else r
  else r

/-- Validation step 8: `require_limit` for SELECT queries. -/
def vStepRequireLimit (cfg : SecurityConfig) (up : String)
    (r : SecurityReport) : SecurityReport :=
  if cfg.requireLimit && pyStartsWith (pyStrip up) "SELECT" &&
      !strContains up "LIMIT" && !strContains up "TOP" then
    { r with
      violations := r.violations ++ ["SELECT queries must include LIMIT clause"]
      recommendations := r.recommendations ++
        ["Add LIMIT clause to prevent excessive resource usage"]
      is_safe := false }
  else r

/-- First match of `LIMIT\s+(\d+)` at exactly this position (case-sensitive,
run on the uppercased query): literal `LIMIT`, at least one whitespace,
then a maximal digit run. -/
def limitValueAt (cs : List Char) : Option Nat :=
  if isPrefixL "LIMIT".data cs then
    let rest := (cs.drop 5)
    let ws := rest.takeWhile isPyWs
    let rest' := rest.dropWhile isPyWs
    let digits := rest'.takeWhile isDigitChar
    if ws ≠ [] ∧ digits ≠ [] then
      some (digits.foldl (fun n c => n * 10 + (c.toNat - '0'.toNat)) 0)
    else none
  else none

/-- Leftmost match of `re.search(r'LIMIT\s+(\d+)', sql_upper)`, returning
`int(match.group(1))`. -/
def extractLimitValue : List Char → Option Nat
  | [] => none
  | c :: cs => (limitValueAt (c :: cs)).orElse (fun _ => extractLimitValue cs)

/-- Validation step 9: LIMIT value bound. -/
def vStepLimitValue (cfg : SecurityConfig) (up : String)
    (r : SecurityReport) : SecurityReport :=
  match extractLimitValue up.data with
  | some v =>
      if v > cfg.maxLimitValue then
        { r with
          violations := r.violations ++
            ["LIMIT value " ++ toString v ++ " exceeds maximum allowed " ++
             toString cfg.maxLimitValue]
          is_safe := false }
      else r
  | none => r

/-- Validation step 10: JOIN count heuristic (warning only). -/
def vStepJoins (cfg : SecurityConfig) (up : String) (r : SecurityReport) :
    SecurityReport :=
  let jc := fiCount false (rcat [.wordB, rlit "JOIN", .wordB]) up
  if jc > cfg.maxJoins then
    { r with
      warnings := r.warnings ++
        ["Query has " ++ toString jc ++ " JOINs (max recommended: " ++
         toString cfg.maxJoins ++ ")"]
      recommendations := r.recommendations ++
        ["Consider breaking complex queries into smaller parts"] }
  else r

/-- Validation step 11: unbalanced-parenthesis heuristic (warning only). -/
def vStepParens (cfg : SecurityConfig) (q : String) (r : SecurityReport) :
    SecurityReport :=
  let diff : Int := (q.data.count '(' : Int) - (q.data.count ')' : Int)
  if diff.natAbs > cfg.maxSubqueries then
    { r with
      warnings := r.warnings ++ ["Complex nested subqueries detected"]
      recommendations := r.recommendations ++
        ["Consider simplifying query structure"] }
  else r

/-- The final risk assessment at the bottom of `_validate_query_security`. -/
def vStepFinal (r : SecurityReport) : SecurityReport :=
  if r.violations ≠ [] then
    let r := { r with is_safe := false }
    if r.risk_level = "" ∨ r.risk_level = "low" then
      { r with risk_level := "medium" }
    else r
  else r

/-- The summary message. -/
def validationMessage (r : SecurityReport) : String :=
  if r.is_safe then
    "Security validation passed" ++
      (if r.warnings ≠ [] then
        " (with " ++ toString r.warnings.length ++ " warnings)"
       else "")
  else
    "Security validation failed: " ++ toString r.violations.length ++
      " violations detected"

/-- Validation steps 5–11 and the final assessment, applied (in source
order) to the report produced by steps 1–4. -/
def vStepsAfterCritical (cfg : SecurityConfig) (q up : String)
    (r : SecurityReport) : SecurityReport :=
  vStepFinal (vStepParens cfg q (vStepJoins cfg up
    (vStepLimitValue cfg up (vStepRequireLimit cfg up
      (vStepSuspicious up (vStepPerformance q (vStepMedium q r)))))))

/-- `_validate_query_security(sql) -> (is_safe, message, security_report)`.
The steps run in source order on the stripped query (`sql_normalized`) and
its uppercasing (`sql_upper`); an empty query returns early. -/
def validate_query_security (cfg : SecurityConfig) (sql : String) :
    Bool × String × SecurityReport :=
  let q := pyStrip sql
  let up := pyUpper q
  if q = "" then
    let r := { initialReport with
      violations := ["Empty query not allowed"], is_safe := false }
    (false, "Empty query", r)
  else
    let r :=
      vStepsAfterCritical cfg q up
        (vStepCritical q (vStepLength cfg q (vStepInjection q initialReport)))
    (r.is_safe, validationMessage r, r)

/-- The report of `_validate_query_security` under the default
configuration. -/
def validateReport (sql : String) : SecurityReport :=
  (validate_query_security defaultSecurityConfig sql).2.2

end SqlAgent

namespace SqlAgent

/-!
## String and scanning helpers

Kernel-reducible counterparts of the Python string operations used by the
recovery/correction code (`str.lower`, `str.replace`, `str.split`,
`str.rstrip(chars)`), plus the scanning combinators with which the
individual `re.sub`/`re.search`-with-groups call sites are transcribed.
-/

/-- `str.lower()` (ASCII). -/
def pyLower (s : String) : String :=
  ⟨s.data.map Char.toLower⟩

/-- `str.rstrip(c)` for a single strip character. -/
def rstripChar (c : Char) (s : String) : String :=
  ⟨(s.data.reverse.dropWhile (fun x => x = c)).reverse⟩

/-- `str.rstrip()` (whitespace). -/
def rstripWs (s : String) : String :=
  ⟨(s.data.reverse.dropWhile (fun x => isPyWs x)).reverse⟩

/-- Replace all non-overlapping occurrences, scanning left to right
(`str.replace`, case-sensitive; also `re.sub` on a fully escaped literal
pattern).  `fuel` is the input length (each step consumes at least one
character). -/
def replaceAllL (pat repl : List Char) : Nat → List Char → List Char
  | 0, cs => cs
  | fuel + 1, cs =>
      if pat ≠ [] ∧ isPrefixL pat cs then
        repl ++ replaceAllL pat repl fuel (cs.drop pat.length)
      else
        match cs with
        | [] => []
        | c :: cs' => c :: replaceAllL pat repl fuel cs'

/-- `s.replace(pat, repl)`. -/
def strReplace (s pat repl : String) : String :=
  ⟨replaceAllL pat.data repl.data (s.data.length + 1) s.data⟩

/-- `s.split(c)` for a single-character separator. -/
def splitOnChar (c : Char) : List Char → List (List Char)
  | [] => [[]]
  | d :: cs =>
      if d = c then [] :: splitOnChar c cs
      else
        match splitOnChar c cs with
        | [] => [[d]]
        | g :: gs => (d :: g) :: gs

/-- Case-insensitive prefix test. -/
def isPrefixCI : List Char → List Char → Bool
  | [], _ => true
  | _ :: _, [] => false
  | a :: as, b :: bs => cmatchChar true a b && isPrefixCI as bs

/-- Consume a case-insensitive literal. -/
def litCIL (w : String) (cs : List Char) : Option (List Char) :=
  if isPrefixCI w.data cs then some (cs.drop w.data.length) else none

/-- Consume a non-empty maximal run of characters satisfying `p`
(a greedy `X+`). -/
def grabP (p : Char → Bool) (cs : List Char) :
    Option (List Char × List Char) :=
  let g := cs.takeWhile p
  if g = [] then none else some (g, cs.drop g.length)

/-- Leftmost-position search: try the position parser at every suffix
(including the empty one), as `re.search` does. -/
def scanFirst {α : Type} (f : List Char → Option α) : List Char → Option α
  | [] => f []
  | c :: cs => (f (c :: cs)).orElse (fun _ => scanFirst f cs)

/-- `re.sub` driver: `tryAt` attempts a match at the current position and
returns the replacement together with the suffix after the match; on
failure the scan advances one character.  Also reports whether any match
was found.  `fuel` is the input length plus one. -/
def scanSub (tryAt : List Char → Option (List Char × List Char)) :
    Nat → List Char → List Char × Bool
  | 0, cs => (cs, false)
  | fuel + 1, cs =>
      match tryAt cs with
      | some (repl, rest) =>
          if rest.length < cs.length then
            (repl ++ (scanSub tryAt fuel rest).1, true)
          else
            match cs with
            | [] => (repl, true)
            | c :: cs' => (repl ++ c :: (scanSub tryAt fuel cs').1, true)
      | none =>
          match cs with
          | [] => ([], false)
          | c :: cs' =>
              let r := scanSub tryAt fuel cs'
              (c :: r.1, r.2)

/-- Run a `re.sub` transcription over a string. -/
def runSub (tryAt : List Char → Option (List Char × List Char))
    (s : String) : String × Bool :=
  let r := scanSub tryAt (s.data.length + 1) s.data
  (⟨r.1⟩, r.2)

/-- Is there a word boundary (`\b`) between the two optional characters? -/
def wordBoundaryOk (a b : Option Char) : Bool :=
  Regex.optWord a ≠ Regex.optWord b

/-- `re.sub(rf'\b{re.escape(w)}\b', repl, s, flags=re.IGNORECASE)`:
replace every word-bounded, case-insensitive occurrence of the literal `w`
(scanning left to right, non-overlapping). -/
def replaceWordAux (w repl : List Char) :
    Nat → Option Char → List Char → List Char
  | 0, _, cs => cs
  | fuel + 1, prev, cs =>
      let seg := cs.take w.length
      let rest := cs.drop w.length
      if w ≠ [] ∧ isPrefixCI w cs ∧ wordBoundaryOk prev cs.head? ∧
          wordBoundaryOk seg.getLast? rest.head? then
        repl ++ replaceWordAux w repl fuel seg.getLast? rest
      else
        match cs with
        | [] => []
        | c :: cs' => c :: replaceWordAux w repl fuel (some c) cs'

/-- String-level wrapper for `replaceWordAux`. -/
def replaceWordCI (w repl s : String) : String :=
  ⟨replaceWordAux w.data repl.data (s.data.length + 1) none s.data⟩

/-!
## Stable descending sort

Python's `list.sort(key=..., reverse=True)` and `sorted(..., reverse=True)`
are stable: elements are ordered by descending key and ties keep their
original relative order.  `sortDescBy ge` is a stable insertion sort for a
total boolean preorder `ge` ("greater or equal on keys"): each element is
inserted after every already-placed element whose key is ≥ its own. -/

/-- Insert `x` after all leading elements `y` with `ge y x`. -/
def insertDescBy {α : Type} (ge : α → α → Bool) (x : α) : List α → List α
  | [] => [x]
  | y :: ys => if ge y x then y :: insertDescBy ge x ys else x :: y :: ys

/-- Stable descending insertion sort. -/
def sortDescBy {α : Type} (ge : α → α → Bool) (l : List α) : List α :=
  l.foldl (fun acc x => insertDescBy ge x acc) []

/-!
## `difflib.get_close_matches`

`SequenceMatcher` with no junk (the strings in scope are far below the
autojunk threshold of 200): the classic longest-matching-block recursion.
`ratio() = 2*M/T`; the `real_quick_ratio`/`quick_ratio` pre-filters in
`get_close_matches` are upper bounds of `ratio`, so filtering by all three
against the cutoff is equivalent to `ratio >= cutoff`. -/

/-- `SequenceMatcher.find_longest_match` (no junk): the longest block
`a[i:i+k] == b[j:j+k]` with `alo<=i<i+k<=ahi`, `blo<=j<j+k<=bhi`, earliest
`i` then earliest `j` on ties. -/
def findLongestMatch (a b : List Char) (alo ahi blo bhi : Nat) :
    Nat × Nat × Nat :=
  ((List.range' alo (ahi - alo)).foldl
    (fun (st : (Nat × Nat × Nat) × List (Nat × Nat)) i =>
      let j2len := st.2
      let js := (List.range' blo (bhi - blo)).filter
        (fun j => b.get? j = a.get? i)
      js.foldl
        (fun (st2 : (Nat × Nat × Nat) × List (Nat × Nat)) j =>
          let k := (if j = 0 then 0 else (j2len.lookup (j - 1)).getD 0) + 1
          let nj := st2.2 ++ [(j, k)]
          if k > st2.1.2.2 then ((i + 1 - k, j + 1 - k, k), nj)
          else (st2.1, nj))
        (st.1, []))
    ((alo, blo, 0), [])).1

/-- `SequenceMatcher.get_matching_blocks` (sizes only): recursively split
around the longest match.  `fuel` bounds the recursion depth. -/
def matchingBlocks (a b : List Char) :
    Nat → Nat → Nat → Nat → Nat → List (Nat × Nat × Nat)
  | 0, _, _, _, _ => []
  | fuel + 1, alo, ahi, blo, bhi =>
      let t := findLongestMatch a b alo ahi blo bhi
      if t.2.2 = 0 then []
      else
        matchingBlocks a b fuel alo t.1 blo t.2.1 ++
          t :: matchingBlocks a b fuel (t.1 + t.2.2) ahi (t.2.1 + t.2.2) bhi

/-- `SequenceMatcher(None, a, b).ratio()`. -/
def seqRatio (a b : List Char) : ℚ :=
  if a.length + b.length = 0 then 1
  else
    let m := ((matchingBlocks a b (a.length + b.length + 1)
        0 a.length 0 b.length).map (fun t => t.2.2)).sum
    ratDivC (2 * (m : ℚ)) ((a.length : ℚ) + (b.length : ℚ))

/-- Descending comparison on `(ratio, string)` pairs, as `heapq.nlargest`
compares the tuples `(ratio, x)`. -/
def ratioPairGe (y x : ℚ × String) : Bool :=
  y.1 > x.1 || (y.1 = x.1 && (strLtB x.2 y.2 || x.2 = y.2))

/-- `difflib.get_close_matches(word, possibilities, n, cutoff)`. -/
def get_close_matches (word : String) (possibilities : List String)
    (n : Nat) (cutoff : ℚ) : List String :=
  let result := possibilities.filterMap (fun x =>
    let r := seqRatio x.data word.data
    if cutoff ≤ r then some (r, x) else none)
  ((sortDescBy ratioPairGe result).take n).map Prod.snd


/-!
## `SQLErrorRecoveryEngine` (`sql_error_recovery.py`)

The engine is embedded with its `db_connection` absent (`None`), as in
`QueryCorrectionService(db_connection=None)`: the live-database fetch
branches of `_get_available_tables`/`_get_table_columns` are guarded by
`self.db_connection` and reduce to the caches, which are carried here as
explicit state (`EngineState`).  The process-wide statistics counters are
advisory telemetry that never influence a returned value; they are not
modelled.  Python float confidences are embedded as `ℚ`.
-/

/-- `ErrorType`. -/
inductive ErrorType
  | syntax_error | column_not_found | table_not_found | function_error
  | type_mismatch | permission_error | timeout_error | connection_error
  | constraint_violation | unknown_error
deriving DecidableEq, Repr

/-- `ErrorType.value`. -/
def ErrorType.value : ErrorType → String
  | .syntax_error => "syntax_error"
  | .column_not_found => "column_not_found"
  | .table_not_found => "table_not_found"
  | .function_error => "function_error"
  | .type_mismatch => "type_mismatch"
  | .permission_error => "permission_error"
  | .timeout_error => "timeout_error"
  | .connection_error => "connection_error"
  | .constraint_violation => "constraint_violation"
  | .unknown_error => "unknown_error"

/-- The names of the recovery functions bound to error patterns.
`fix_aggregate_error` is referenced by the last pattern but **no such
method exists** on the engine, so its `hasattr` dispatch fails. -/
inductive RecoveryFn
  | fixColumnName | fixTableName | fixSyntaxError | fixFunctionError
  | fixTypeMismatch | optimizeForTimeout | fixGroupByError
  | fixAggregateError
deriving DecidableEq, Repr

/-- Tags for the 13 error-pattern regexes (each transcribed as a bespoke
first-match scanner with capture groups below). -/
inductive ErrScan
  | colPg | relPg | synPg | funcPg | colMy | tblMy | colMs | tblMs
  | typeG | permG | timeoutG | gbPosG | aggG
deriving DecidableEq, Repr

/-- Attempt the pattern at the current position and return its capture
groups (Python `re.search(..., re.IGNORECASE)` semantics; each quantifier
here is deterministic after greedy expansion, as a failed shorter split
would resume on a character of the same class). -/
def ErrScan.runAt : ErrScan → List Char → Option (List String)
  -- `column "([^"]+)" does not exist`
  | .colPg, cs => do
      let r1 ← litCIL "column \"" cs
      let (g, r2) ← grabP (fun c => c != '"') r1
      let _ ← litCIL "\" does not exist" r2
      pure [⟨g⟩]
  -- `relation "([^"]+)" does not exist`
  | .relPg, cs => do
      let r1 ← litCIL "relation \"" cs
      let (g, r2) ← grabP (fun c => c != '"') r1
      let _ ← litCIL "\" does not exist" r2
      pure [⟨g⟩]
  -- `syntax error at or near "([^"]*)"`
  | .synPg, cs => do
      let r1 ← litCIL "syntax error at or near \"" cs
      let g := r1.takeWhile (fun c => c != '"')
      let _ ← litCIL "\"" (r1.drop g.length)
      pure [⟨g⟩]
  -- `function ([^\s(]+)\([^)]*\) does not exist`
  | .funcPg, cs => do
      let r1 ← litCIL "function " cs
      let (g, r2) ← grabP (fun c => !isPyWs c && c != '(') r1
      let r3 ← litCIL "(" r2
      let args := r3.takeWhile (fun c => c != ')')
      let _ ← litCIL ") does not exist" (r3.drop args.length)
      pure [⟨g⟩]
  -- `Unknown column '([^']+)' in '([^']+)'`
  | .colMy, cs => do
      let r1 ← litCIL "Unknown column '" cs
      let (g1, r2) ← grabP (fun c => c != '\'') r1
      let r3 ← litCIL "' in '" r2
      let (g2, r4) ← grabP (fun c => c != '\'') r3
      let _ ← litCIL "'" r4
      pure [⟨g1⟩, ⟨g2⟩]
  -- `Table '([^']+)' doesn't exist`
  | .tblMy, cs => do
      let r1 ← litCIL "Table '" cs
      let (g, r2) ← grabP (fun c => c != '\'') r1
      let _ ← litCIL "' doesn't exist" r2
      pure [⟨g⟩]
  -- `Invalid column name '([^']+)'`
  | .colMs, cs => do
      let r1 ← litCIL "Invalid column name '" cs
      let (g, r2) ← grabP (fun c => c != '\'') r1
      let _ ← litCIL "'" r2
      pure [⟨g⟩]
  -- `Invalid object name '([^']+)'`
  | .tblMs, cs => do
      let r1 ← litCIL "Invalid object name '" cs
      let (g, r2) ← grabP (fun c => c != '\'') r1
      let _ ← litCIL "'" r2
      pure [⟨g⟩]
  -- `invalid input syntax for (?:type )?(\w+): "([^"]*)"`
  | .typeG, cs => do
      let r1 ← litCIL "invalid input syntax for " cs
      let attempt := fun (r : List Char) => do
        let (ty, r2) ← grabP isWordChar r
        let r3 ← litCIL ": \"" r2
        let v := r3.takeWhile (fun c => c != '"')
        let _ ← litCIL "\"" (r3.drop v.length)
        pure [(⟨ty⟩ : String), ⟨v⟩]
      ((litCIL "type " r1).bind attempt).orElse (fun _ => attempt r1)
  -- `permission denied for (?:relation|table) (\w+)`
  | .permG, cs => do
      let r1 ← litCIL "permission denied for " cs
      let r2 ← (litCIL "relation" r1).orElse (fun _ => litCIL "table" r1)
      let r3 ← litCIL " " r2
      let (g, _) ← grabP isWordChar r3
      pure [⟨g⟩]
  -- `canceling statement due to statement timeout`
  | .timeoutG, cs => do
      let _ ← litCIL "canceling statement due to statement timeout" cs
      pure []
  -- `GROUP BY position (\d+) is not in select list`
  | .gbPosG, cs => do
      let r1 ← litCIL "GROUP BY position " cs
      let (g, r2) ← grabP isDigitChar r1
      let _ ← litCIL " is not in select list" r2
      pure [⟨g⟩]
  -- `must appear in the GROUP BY clause or be used in an aggregate function`
  | .aggG, cs => do
      let _ ← litCIL
        "must appear in the GROUP BY clause or be used in an aggregate function"
        cs
      pure []

/-- `re.search` over the whole message: leftmost match's groups. -/
def ErrScan.run (e : ErrScan) (s : String) : Option (List String) :=
  scanFirst e.runAt s.data

/-- One entry of `_initialize_error_patterns` (the regex is carried as its
scanner tag). -/
structure ErrorPattern where
  scanner : ErrScan
  error_type : ErrorType
  description : String
  auto_fix : Bool
  confidence : ℚ
  recovery_function : Option RecoveryFn
deriving DecidableEq, Repr

/-- `_initialize_error_patterns()`, in source order.  All patterns use the
dataclass default confidence `0.8`; the permission pattern has
`auto_fix=False` and no recovery function. -/
def errorPatterns : List ErrorPattern := [
  ⟨.colPg, .column_not_found, "Column name not found", true, mkRat 4 5,
    some .fixColumnName⟩,
  ⟨.relPg, .table_not_found, "Table name not found", true, mkRat 4 5,
    some .fixTableName⟩,
  ⟨.synPg, .syntax_error, "SQL syntax error", true, mkRat 4 5,
    some .fixSyntaxError⟩,
  ⟨.funcPg, .function_error, "Function not found or wrong signature", true,
    mkRat 4 5, some .fixFunctionError⟩,
  ⟨.colMy, .column_not_found, "MySQL column not found", true, mkRat 4 5,
    some .fixColumnName⟩,
  ⟨.tblMy, .table_not_found, "MySQL table not found", true, mkRat 4 5,
    some .fixTableName⟩,
  ⟨.colMs, .column_not_found, "SQL Server column not found", true, mkRat 4 5,
    some .fixColumnName⟩,
  ⟨.tblMs, .table_not_found, "SQL Server table not found", true, mkRat 4 5,
    some .fixTableName⟩,
  ⟨.typeG, .type_mismatch, "Type conversion error", true, mkRat 4 5,
    some .fixTypeMismatch⟩,
  ⟨.permG, .permission_error, "Permission denied", false, mkRat 4 5, none⟩,
  ⟨.timeoutG, .timeout_error, "Query timeout", true, mkRat 4 5,
    some .optimizeForTimeout⟩,
  ⟨.gbPosG, .syntax_error, "GROUP BY column not in SELECT", true, mkRat 4 5,
    some .fixGroupByError⟩,
  ⟨.aggG, .syntax_error, "Column not in GROUP BY", true, mkRat 4 5,
    some .fixAggregateError⟩]

/-- One element of `error_info["matches"]`. -/
structure ErrMatch where
  error_type : ErrorType
  confidence : ℚ
  recovery_function : Option RecoveryFn
  groups : List String
deriving DecidableEq, Repr

/-- The error patterns that fire on a message, in table order. -/
def matchedErrorPatterns (msg : String) : List ErrorPattern :=
  errorPatterns.filter (fun p => (p.scanner.run msg).isSome)

/-- The recorded matches of `analyze_error` (pattern metadata plus capture
groups), in table order. -/
def errorMatches (msg : String) : List ErrMatch :=
  errorPatterns.filterMap (fun p =>
    (p.scanner.run msg).map (fun gs =>
      ⟨p.error_type, p.confidence, p.recovery_function, gs⟩))

/-- The update of `best_match`/`highest_confidence` for one matching
pattern: strict `>` against the running maximum. -/
def bestUpd (acc : Option ErrorPattern × ℚ) (p : ErrorPattern) :
    Option ErrorPattern × ℚ :=
  if p.confidence > acc.2 then (some p, p.confidence) else acc

/-- One iteration of `analyze_error`'s loop. -/
def bestStep (msg : String) (acc : Option ErrorPattern × ℚ)
    (p : ErrorPattern) : Option ErrorPattern × ℚ :=
  if (p.scanner.run msg).isSome then bestUpd acc p else acc

/-- The `best_match`/`highest_confidence` selection loop of
`analyze_error`: strict `>` against the running maximum, so the first
pattern attaining the maximal confidence wins. -/
def bestErrorPattern (msg : String) : Option ErrorPattern × ℚ :=
  errorPatterns.foldl (bestStep msg) (none, 0)

/-- `analyze_error(error_message, query) -> (error_type, error_info)`, with
`error_info` reduced to its consumed fields `matches` and `confidence`. -/
def analyze_error (msg : String) : ErrorType × ℚ × List ErrMatch :=
  match bestErrorPattern msg with
  | (some p, hi) => (p.error_type, hi, errorMatches msg)
  | (none, _) => (.unknown_error, 0, errorMatches msg)

/-- `RecoveryResult` (Python dataclass; unset optionals are `None`, the
default confidence is `0.0`). -/
structure RecoveryResult where
  success : Bool
  corrected_query : Option String
  error_type : Option ErrorType
  corrections_applied : Option (List String)
  confidence : ℚ
  suggestion : Option String
  original_error : Option String
deriving DecidableEq, Repr

/-- The engine's schema caches (`table_cache`, `column_cache`), its only
state consulted by the recovery functions when no database connection is
present. -/
structure EngineState where
  tableCache : List String
  columnCache : List (String × List String)
deriving Repr

/-- A freshly constructed engine: empty caches. -/
def emptyEngineState : EngineState := ⟨[], []⟩

/-- `_get_table_columns` with no database connection: the cache entry or
nothing. -/
def getTableColumns (st : EngineState) (table : String) : List String :=
  (st.columnCache.lookup table).getD []

/-- Try `{kw}\s+(\w+)` at the current position (case-insensitive),
returning the captured word and the suffix after the match. -/
def tryKwWord (kw : String) (cs : List Char) : Option (String × List Char) := do
  let r1 ← litCIL kw cs
  let (_, r2) ← grabP isPyWs r1
  let (w, r3) ← grabP isWordChar r2
  pure (⟨w⟩, r3)

/-- Scanning driver for `findAllKwWord`. -/
def findAllKwAux (kw : String) : Nat → List Char → List String
  | 0, _ => []
  | fuel + 1, cs =>
      match tryKwWord kw cs with
      | some (w, rest) =>
          if rest.length < cs.length then w :: findAllKwAux kw fuel rest
          else
            match cs with
            | [] => [w]
            | _ :: cs' => w :: findAllKwAux kw fuel cs'
      | none =>
          match cs with
          | [] => []
          | _ :: cs' => findAllKwAux kw fuel cs'

/-- `re.findall(rf'{kw}\s+(\w+)', query, re.IGNORECASE)`: the captured word
of each non-overlapping occurrence, left to right. -/
def findAllKwWord (kw : String) (s : String) : List String :=
  findAllKwAux kw (s.data.length + 1) s.data

/-- `_get_available_columns` with no database connection: columns of the
tables mentioned after `FROM`/`JOIN`, deduplicated (`list(set(...))`; the
set's iteration order is irrelevant downstream, where only a maximum is
taken). -/
def availableColumns (st : EngineState) (query : String) : List String :=
  let tables := findAllKwWord "FROM" query ++ findAllKwWord "JOIN" query
  (tables.flatMap (fun t => getTableColumns st t)).dedup

/-- `_get_available_tables` with no database connection. -/
def availableTables (st : EngineState) : List String :=
  st.tableCache

/-!
## The recovery functions

Each is a pure rewrite of the query string, as in the source.  Every
`re.sub` call site is transcribed as a bespoke left-to-right scanner (the
patterns are deterministic after greedy expansion).
-/

/-- The first fallback dictionary of `fix_column_name` (used when no schema
columns are available). -/
def commonColumnFixes8 : List (String × String) :=
  [("nam", "name"), ("emai", "email"), ("user_i", "user_id"),
   ("product_i", "product_id"), ("id_user", "user_id"),
   ("id_product", "product_id"), ("usr", "user"), ("prod", "product")]

/-- The second, smaller fallback dictionary of `fix_column_name` (used when
fuzzy matching against schema columns fails). -/
def commonColumnFixes4 : List (String × String) :=
  [("nam", "name"), ("emai", "email"), ("user_i", "user_id"),
   ("product_i", "product_id")]

/-- `fix_column_name(query, error_message, groups)`. -/
def fix_column_name (st : EngineState) (query : String) (groups : List String) :
    String × List String :=
  match groups with
  | [] => (query, [])
  | invalid :: _ =>
      let available := availableColumns st query
      if available = [] then
        match commonColumnFixes8.lookup (pyLower invalid) with
        | some best =>
            (replaceWordCI invalid best query,
             ["Replaced '" ++ invalid ++ "' with '" ++ best ++ "'"])
        | none => (query, [])
      else
        match get_close_matches invalid available 3 (mkRat 3 5) with
        | best :: _ =>
            (replaceWordCI invalid best query,
             ["Replaced '" ++ invalid ++ "' with '" ++ best ++ "'"])
        | [] =>
            match commonColumnFixes4.lookup (pyLower invalid) with
            | some best =>
                (replaceWordCI invalid best query,
                 ["Replaced '" ++ invalid ++ "' with '" ++ best ++
                  "' (common pattern)"])
            | none => (query, [])

/-- `fix_table_name(query, error_message, groups)`. -/
def fix_table_name (st : EngineState) (query : String)
    (groups : List String) : String × List String :=
  match groups with
  | [] => (query, [])
  | invalid :: _ =>
      let available := availableTables st
      if available = [] then (query, [])
      else
        match get_close_matches invalid available 3 (mkRat 3 5) with
        | best :: _ =>
            (replaceWordCI invalid best query,
             ["Replaced table '" ++ invalid ++ "' with '" ++ best ++ "'"])
        | [] => (query, [])

/-- `SELECT\s+(\w+)\s+(\w+)\s+FROM` → `SELECT \1, \2 FROM` (syntax fix 1). -/
def tryMissingComma (cs : List Char) : Option (List Char × List Char) := do
  let r1 ← litCIL "SELECT" cs
  let (_, r2) ← grabP isPyWs r1
  let (w1, r3) ← grabP isWordChar r2
  let (_, r4) ← grabP isPyWs r3
  let (w2, r5) ← grabP isWordChar r4
  let (_, r6) ← grabP isPyWs r5
  let r7 ← litCIL "FROM" r6
  pure ("SELECT ".data ++ w1 ++ ", ".data ++ w2 ++ " FROM".data, r7)

/-- `'(\d+)'` → `\1` (syntax fix 2: strip quotes from numeric literals). -/
def tryQuotedNumber (cs : List Char) : Option (List Char × List Char) := do
  let r1 ← litCIL "'" cs
  let (ds, r2) ← grabP isDigitChar r1
  let r3 ← litCIL "'" r2
  pure (ds, r3)

/-- `(\w+)\s*\(\s*\)` → `\1()` (syntax fix 3: normalize empty parens). -/
def tryEmptyParens (cs : List Char) : Option (List Char × List Char) := do
  let (w, r1) ← grabP isWordChar cs
  let r2 := r1.dropWhile isPyWs
  let r3 ← litCIL "(" r2
  let r4 := r3.dropWhile isPyWs
  let r5 ← litCIL ")" r4
  pure (w ++ "()".data, r5)

/-- `LIMIT\s*$` → `LIMIT 100` (syntax fix 4): the match, if any, extends to
the end of the string (a trailing newline is consumed by the greedy
`\s*`). -/
def subLimitEnd (s : String) : String × Bool :=
  match leAux s.data with
  | some out => (⟨out⟩, true)
  | none => (s, false)
where
  leAux : List Char → Option (List Char)
    | [] => none
    | c :: cs =>
        if isPrefixCI "LIMIT".data (c :: cs) ∧
            ((c :: cs).drop 5).all (fun x => isPyWs x) then
          some "LIMIT 100".data
        else (leAux cs).map (c :: ·)

/-- `(?<!;)\s*$` → `;` (syntax fix 5): match at the leftmost position not
preceded by `;` whose suffix is all whitespace; the whitespace suffix is
replaced by a semicolon. -/
def subTrailingSemi (s : String) : String × Bool :=
  let r := tsAux none s.data
  (⟨r.1⟩, r.2)
where
  tsAux : Option Char → List Char → List Char × Bool
    | prev, cs =>
        if prev ≠ some ';' ∧ cs.all (fun x => isPyWs x) then ([';'], true)
        else
          match cs with
          | [] => ([], false)
          | c :: cs' =>
              let r := tsAux (some c) cs'
              (c :: r.1, r.2)

/-- The ordered `syntax_fixes` of `fix_syntax_error`: each returns the
rewritten string and whether the pattern matched at all. -/
def applySyntaxFix : Nat → String → String × Bool
  | 0, s => runSub tryMissingComma s
  | 1, s => runSub tryQuotedNumber s
  | 2, s => runSub tryEmptyParens s
  | 3, s => subLimitEnd s
  | _, s => subTrailingSemi s

/-- The descriptions of the five syntax fixes, in order. -/
def syntaxFixDescriptions : List (Nat × String) :=
  [(0, "Added missing comma in SELECT"),
   (1, "Removed quotes from numeric literal"),
   (2, "Fixed function parentheses"),
   (3, "Added default LIMIT value"),
   (4, "Added missing semicolon")]

/-- `fix_syntax_error(query, error_message, groups)`: apply the first rule
that matches *and changes the query* (a matching rule whose substitution
is the identity does not stop the loop). -/
def fix_syntax_error (query : String) : String × List String :=
  let r := syntaxFixDescriptions.foldl
    (fun (acc : String × List String × Bool) fix =>
      if acc.2.2 then acc
      else
        let r := applySyntaxFix fix.1 acc.1
        if r.2 ∧ r.1 ≠ acc.1 then (r.1, acc.2.1 ++ [fix.2], true) else acc)
    (query, [], false)
  (r.1, r.2.1)

/-- The `function_fixes` table of `fix_function_error`. -/
def functionFixes : List (String × String) :=
  [("len", "LENGTH"), ("str", "CAST(... AS TEXT)"),
   ("int", "CAST(... AS INTEGER)"), ("substr", "SUBSTRING"),
   ("isnull", "COALESCE"), ("ifnull", "COALESCE"), ("now", "NOW()"),
   ("today", "CURRENT_DATE")]

/-- `fix_function_error(query, error_message, groups)`. -/
def fix_function_error (query : String) (groups : List String) :
    String × List String :=
  match groups with
  | [] => (query, [])
  | wrong :: _ =>
      match functionFixes.find? (fun f => f.1 = pyLower wrong) with
      | some f =>
          (replaceWordCI wrong f.2 query,
           ["Replaced function '" ++ wrong ++ "' with '" ++ f.2 ++ "'"])
      | none => (query, [])

/-- First run of `\d+` in a string (`re.search(r'\d+', value)`). -/
def firstDigitRun : List Char → Option (List Char)
  | [] => none
  | c :: cs =>
      if isDigitChar c then some ((c :: cs).takeWhile isDigitChar)
      else firstDigitRun cs

/-- `fix_type_mismatch(query, error_message, groups)`. -/
def fix_type_mismatch (query : String) (groups : List String) :
    String × List String :=
  match groups with
  | targetType :: invalidValue :: _ =>
      if pyLower targetType ∈ (["integer", "int", "bigint"] : List String) then
        match firstDigitRun invalidValue.data with
        | some num =>
            (strReplace query ("'" ++ invalidValue ++ "'") ⟨num⟩,
             ["Converted '" ++ invalidValue ++ "' to numeric " ++ ⟨num⟩])
        | none => (query, [])
      else if pyLower targetType ∈ (["date", "timestamp"] : List String) then
        (strReplace query ("'" ++ invalidValue ++ "'")
           ("'" ++ invalidValue ++ "'::DATE"),
         ["Added date casting for '" ++ invalidValue ++ "'"])
      else (query, [])
  | _ => (query, [])

/-- `SELECT\s+\*` → replacement (used by `optimize_for_timeout`). -/
def trySelectStar (cs : List Char) : Option (List Char × List Char) := do
  let r1 ← litCIL "SELECT" cs
  let (_, r2) ← grabP isPyWs r1
  let r3 ← litCIL "*" r2
  pure ("SELECT id, name".data, r3)

/-- `optimize_for_timeout(query, error_message, groups)`. -/
def optimize_for_timeout (query : String) : String × List String :=
  let (q1, c1) :=
    if ¬ strContains (pyUpper query) "LIMIT" then
      (rstripChar ';' query ++ " LIMIT 1000;",
       ["Added LIMIT 1000 to prevent timeout"])
    else (query, [])
  if strContains (pyUpper q1) "SELECT *" then
    ((runSub trySelectStar q1).1,
     c1 ++ ["Replaced SELECT * with specific columns"])
  else (q1, c1)

/-- Group 1 of `re.search(r'SELECT\s+(.*?)\s+FROM', q, IGNORECASE|DOTALL)`
tried at the current position: greedy `\s+` backed off outermost-first,
lazy middle grown shortest-first. -/
def trySelectFromLazy (cs : List Char) : Option String := do
  let r1 ← litCIL "SELECT" cs
  let wsMax := (r1.takeWhile isPyWs).length
  if wsMax = 0 then none
  else wLoop wsMax r1
where
  midOk (cs : List Char) : Bool :=
    let w := cs.takeWhile isPyWs
    w ≠ [] && isPrefixCI "FROM".data (cs.drop w.length)
  midLoop : Nat → List Char → Nat → Option Nat
    | _, _, 0 => none
    | k, cs, fuel + 1 =>
        if midOk cs then some k
        else
          match cs with
          | [] => none
          | _ :: cs' => midLoop (k + 1) cs' fuel
  wLoop : Nat → List Char → Option String
    | 0, _ => none
    | w + 1, r1 =>
        let afterWs := r1.drop (w + 1)
        match midLoop 0 afterWs (afterWs.length + 1) with
        | some k => some ⟨afterWs.take k⟩
        | none => wLoop w r1

/-- Leftmost `SELECT\s+(.*?)\s+FROM` group over the whole query. -/
def searchSelectFrom (q : String) : Option String :=
  scanFirst trySelectFromLazy q.data

/-- Lookahead of `GROUP BY.*?(?=ORDER|LIMIT|HAVING|$)` (no DOTALL: the lazy
run cannot cross a newline; `$` is end-of-string or before a final
newline). -/
def gbLookaheadOk (cs : List Char) : Bool :=
  isPrefixCI "ORDER".data cs || isPrefixCI "LIMIT".data cs ||
    isPrefixCI "HAVING".data cs || cs.isEmpty || cs = ['\n']

/-- Shortest extension of the lazy `.*?` to a lookahead position. -/
def gbScanEnd : List Char → Option (List Char)
  | [] => if gbLookaheadOk [] then some [] else none
  | c :: cs' =>
      if gbLookaheadOk (c :: cs') then some (c :: cs')
      else if c = '\n' then none
      else gbScanEnd cs'

/-- `GROUP BY.*?(?=ORDER|LIMIT|HAVING|$)` → `GROUP BY {cols} ` at the
current position. -/
def tryGroupByRepl (cols : String) (cs : List Char) :
    Option (List Char × List Char) := do
  let r1 ← litCIL "GROUP BY" cs
  let rest ← gbScanEnd r1
  pure (("GROUP BY " ++ cols ++ " ").data, rest)

/-- `fix_group_by_error(query, error_message, groups)`. -/
def fix_group_by_error (query : String) : String × List String :=
  match searchSelectFrom query with
  | none => (query, [])
  | some selectPart =>
      let columns := (splitOnChar ',' selectPart.data).map
        (fun col => pyStrip ⟨col⟩)
      let nonAggregate := columns.filter (fun col =>
        !(["COUNT", "SUM", "AVG", "MAX", "MIN"].any
          (fun f => strContains (pyUpper col) f)))
      if nonAggregate ≠ [] then
        let gbCols := String.intercalate ", " (nonAggregate.take 3)
        if strContains (pyUpper query) "GROUP BY" then
          ((runSub (tryGroupByRepl gbCols) query).1,
           ["Added/fixed GROUP BY clause with columns: " ++ gbCols])
        else
          (rstripChar ';' query ++ " GROUP BY " ++ gbCols ++ ";",
           ["Added/fixed GROUP BY clause with columns: " ++ gbCols])
      else (query, [])

/-- `hasattr`-based dispatch of a recovery-function name to its
implementation; `fix_aggregate_error` is referenced by a pattern but not
defined on the engine, so it dispatches to nothing. -/
def RecoveryFn.dispatch :
    RecoveryFn →
      Option (EngineState → String → List String → String × List String)
  | .fixColumnName => some (fun st q gs => fix_column_name st q gs)
  | .fixTableName => some (fun st q gs => fix_table_name st q gs)
  | .fixSyntaxError => some (fun _ q _ => fix_syntax_error q)
  | .fixFunctionError => some (fun _ q gs => fix_function_error q gs)
  | .fixTypeMismatch => some (fun _ q gs => fix_type_mismatch q gs)
  | .optimizeForTimeout => some (fun _ q _ => optimize_for_timeout q)
  | .fixGroupByError => some (fun _ q _ => fix_group_by_error q)
  | .fixAggregateError => none

/-- `recover_from_error(error_message, query)`.  The result is successful
only when the dispatched recovery function returns a non-empty query
(Python truthiness) that differs from the input. -/
def recover_from_error (st : EngineState) (error_message query : String) :
    RecoveryResult :=
  let a := analyze_error error_message
  let etype := a.1
  let best? := a.2.2.find? (fun m =>
    m.error_type = etype ∧ m.recovery_function.isSome)
  match best? with
  | none =>
      { success := false, corrected_query := none, error_type := some etype
        corrections_applied := none, confidence := 0
        suggestion := some "No automatic recovery available for this error type."
        original_error := some error_message }
  | some m =>
      let failed : RecoveryResult :=
        { success := false, corrected_query := none, error_type := some etype
          corrections_applied := none, confidence := m.confidence
          suggestion := some ("Could not automatically fix " ++ etype.value ++
            ". Manual intervention required.")
          original_error := some error_message }
      match m.recovery_function.bind RecoveryFn.dispatch with
      | none => failed
      | some f =>
          let r := f st query m.groups
          if r.1 ≠ "" ∧ r.1 ≠ query then
            { success := true, corrected_query := some r.1
              error_type := some etype, corrections_applied := some r.2
              confidence := m.confidence, suggestion := none
              original_error := some error_message }
          else failed

/-!
## `QueryCorrectionService` (query_correction_service.py)

`CorrectionStrategy`, `CorrectionAttempt`, the correction-rule tables
and the strategy methods.  Each rule's regex pattern is transcribed into
a decidable `search` (the truth value of `re.search(pattern, q,
re.IGNORECASE)`); the transcription notes, per pattern, why its
lookarounds cannot affect match existence and why the greedy/lazy
quantifiers are deterministic (adjacent character classes are disjoint,
so backtracking can never succeed where the maximal munch fails).
-/

inductive CorrectionStrategy
  | conservative
  | moderate
  | aggressive
deriving DecidableEq

def CorrectionStrategy.value : CorrectionStrategy → String
  | .conservative => "conservative"
  | .moderate => "moderate"
  | .aggressive => "aggressive"

structure CorrectionAttempt where
  strategy : CorrectionStrategy
  original_query : String
  corrected_query : String
  confidence : ℚ
  corrections_applied : List String
  estimated_success_rate : ℚ
deriving DecidableEq

/-- Scan a predicate across the suffixes reachable without crossing a
newline: the gap is matched by `.*` with `re.DOTALL` off. -/
def findInLineP (p : List Char → Bool) : List Char → Bool
  | [] => p []
  | c :: cs => p (c :: cs) || (decide (c ≠ '\n') && findInLineP p cs)

/-- `.*w` on the current line: some suffix reachable without a newline
starts with the case-insensitive literal `w`. -/
def findCIinLine (w : String) (cs : List Char) : Bool :=
  findInLineP (fun r => isPrefixCI w.data r) cs

/-- `re.search(r"SELECT.*FROM.*(?!.*LIMIT)(?!.*TOP)", q, re.IGNORECASE)`:
taking the trailing `.*` to the end of its line satisfies both negative
lookaheads (`.` cannot cross the newline, so `.*LIMIT` and `.*TOP` cannot
match at a line end), hence the pattern matches exactly when
`SELECT.*FROM` does. -/
def searchAddLimitPat : List Char → Bool
  | [] => false
  | c :: cs =>
      (isPrefixCI "SELECT".data (c :: cs) &&
        findCIinLine "FROM" ((c :: cs).drop 6)) ||
      searchAddLimitPat cs

/-- Match `SELECT\s+\*\s+FROM` (case-insensitive) at the head: each `\s+`
is forced to its maximal run because the next character (`*`, `F`) is not
whitespace. -/
def selectStarHereP (cs : List Char) : Bool :=
  match litCIL "SELECT" cs with
  | none => false
  | some r0 =>
      match grabP isPyWs r0 with
      | none => false
      | some (_, r1) =>
          match r1 with
          | '*' :: r2 =>
              match grabP isPyWs r2 with
              | none => false
              | some (_, r3) => (litCIL "FROM" r3).isSome
          | _ => false

/-- `re.search(r"SELECT\s+\*\s+FROM", q, re.IGNORECASE)`. -/
def searchSelectStarPat : List Char → Bool
  | [] => false
  | c :: cs => selectStarHereP (c :: cs) || searchSelectStarPat cs

/-- Match `FROM\s+\w+` at the head (`\s` may include newlines). -/
def fromWsWordAt (cs : List Char) : Bool :=
  match litCIL "FROM" cs with
  | none => false
  | some r0 =>
      match grabP isPyWs r0 with
      | none => false
      | some (_, r1) => (grabP isWordChar r1).isSome

/-- `re.search(r"SELECT.*FROM\s+\w+\s*(?!WHERE)(?!JOIN)(?!LIMIT)", q,
re.IGNORECASE)`: with `\w+` maximal and `\s*` empty, the position after
the match never starts with a word character, so the three negative
lookaheads (each starting with a word character) hold; the pattern
matches exactly when `SELECT.*FROM\s+\w+` does. -/
def searchWherePat : List Char → Bool
  | [] => false
  | c :: cs =>
      (isPrefixCI "SELECT".data (c :: cs) &&
        findInLineP fromWsWordAt ((c :: cs).drop 6)) ||
      searchWherePat cs

/-- Match `(COUNT|SUM|AVG|MAX|MIN)\s*\(` at the head: no alternative is a
prefix of another, so at most one literal matches, and `\s*` is forced
maximal because `(` is not whitespace. -/
def aggOpenAt (cs : List Char) : Bool :=
  (["COUNT", "SUM", "AVG", "MAX", "MIN"].filterMap
      (fun f => litCIL f cs)).head?.elim false (fun r =>
    decide ((r.drop (r.takeWhile isPyWs).length).head? = some '('))

/-- `re.search(r"\b(COUNT|SUM|AVG|MAX|MIN)\s*\(", s, re.IGNORECASE)`:
scan every position, threading the previous character for the word
boundary. -/
def aggSearchAux : Option Char → List Char → Bool
  | _, [] => false
  | prev, c :: cs =>
      (wordBoundaryOk prev (some c) && aggOpenAt (c :: cs)) ||
      aggSearchAux (some c) cs

def aggSearch (s : String) : Bool :=
  aggSearchAux none s.data

/-- Consume `(COUNT|SUM|AVG|MAX|MIN)\s*\([^)]+\)` at the head, returning
the suffix: `[^)]+` is forced maximal because the next pattern character
is `)`. -/
def aggCallConsume (cs : List Char) : Option (List Char) :=
  (["COUNT", "SUM", "AVG", "MAX", "MIN"].filterMap
      (fun f => litCIL f cs)).head?.bind (fun r =>
    match r.drop (r.takeWhile isPyWs).length with
    | '(' :: r2 =>
        match grabP (fun c => decide (c ≠ ')')) r2 with
        | some (_, r3) =>
            match r3 with
            | ')' :: r4 => some r4
            | _ => none
        | none => none
    | _ => none)

/-- After an aggregate call, `.*FROM` on the current line. -/
def aggThenFrom (cs : List Char) : Bool :=
  (aggCallConsume cs).elim false (fun rest => findCIinLine "FROM" rest)

/-- `re.search` truth value of the `fix_aggregation_without_group_by`
pattern `SELECT.*(?:COUNT|SUM|AVG|MAX|MIN)\s*\([^)]+\).*FROM.*(?!GROUP
BY)` (case-insensitive): the trailing `.*(?!GROUP BY)` is satisfiable at
every line end, so only `SELECT.*agg-call.*FROM` matters. -/
def searchAggPat : List Char → Bool
  | [] => false
  | c :: cs =>
      (isPrefixCI "SELECT".data (c :: cs) &&
        findInLineP aggThenFrom ((c :: cs).drop 6)) ||
      searchAggPat cs

/-- `re.search(r"SELECT.*HAVING.*(?<!GROUP BY)", q, re.IGNORECASE)`: with
the trailing `.*` empty the lookbehind inspects text ending in `HAVING`,
never equal to `GROUP BY`, so only `SELECT.*HAVING` matters. -/
def searchHavingPat : List Char → Bool
  | [] => false
  | c :: cs =>
      (isPrefixCI "SELECT".data (c :: cs) &&
        findCIinLine "HAVING" ((c :: cs).drop 6)) ||
      searchHavingPat cs

/-- Negative lookahead `(?!\s*,|\s*FROM)` at a position: it fails exactly
when the whitespace run there is followed by `,` or `FROM` (both start
with a non-whitespace character, so `\s*` is forced maximal). -/
def noCommaLookOk (rest : List Char) : Bool :=
  let r := rest.drop (rest.takeWhile isPyWs).length
  !(decide (r.head? = some ',') || isPrefixCI "FROM".data r)

/-- Backtracking of the second `(\w+)` of the `fix_missing_commas`
pattern: some non-empty prefix of the maximal word run must satisfy the
lookahead at the position after it (`∃ j ∈ [1, |b|]`). -/
def anyDropOk : List Char → List Char → Bool
  | [], _ => false
  | _ :: tb, rest => noCommaLookOk (tb ++ rest) || anyDropOk tb rest

/-- Match `SELECT\s+(\w+)\s+(\w+)(?!\s*,|\s*FROM)` (case-insensitive) at
the head: all quantifiers up to the second `(\w+)` are forced by the
disjointness of `\s` and `\w`; the second group backtracks against the
negative lookahead. -/
def missingCommaHereP (cs : List Char) : Bool :=
  match litCIL "SELECT" cs with
  | none => false
  | some r0 =>
      match grabP isPyWs r0 with
      | none => false
      | some (_, r1) =>
          match grabP isWordChar r1 with
          | none => false
          | some (_, r2) =>
              match grabP isPyWs r2 with
              | none => false
              | some (_, r3) =>
                  match grabP isWordChar r3 with
                  | none => false
                  | some (b, r4) => anyDropOk b r4

/-- `re.search` truth value of the `fix_missing_commas` rule pattern. -/
def searchMissingCommaPat : List Char → Bool
  | [] => false
  | c :: cs => missingCommaHereP (c :: cs) || searchMissingCommaPat cs

/-- Match `['"](\d+)['"]` at the head, returning the digit group and the
suffix: `\d+` is forced maximal because a quote is not a digit.  The two
quotes need not match each other, as in the source pattern. -/
def quoteNumAt (cs : List Char) : Option (List Char × List Char) :=
  match cs with
  | q1 :: rest =>
      if q1 = '\'' ∨ q1 = '"' then
        match grabP Char.isDigit rest with
        | some (d, r2) =>
            match r2 with
            | q2 :: r3 =>
                if q2 = '\'' ∨ q2 = '"' then some (d, r3) else none
            | [] => none
        | none => none
      else none
  | [] => none

/-- `re.search` truth value of the `fix_quote_consistency` pattern. -/
def searchQuotePat : List Char → Bool
  | [] => false
  | c :: cs => (quoteNumAt (c :: cs)).isSome || searchQuotePat cs

/-- Word-bounded case-insensitive search for one of a list of literals,
`\b(w1|w2|...)\b`. -/
def wordAltSearchAux (ws : List String) : Option Char → List Char → Bool
  | _, [] => false
  | prev, c :: cs =>
      (ws.any (fun w =>
        wordBoundaryOk prev (some c) && isPrefixCI w.data (c :: cs) &&
        wordBoundaryOk ((c :: cs).take w.data.length).getLast?
          ((c :: cs).drop w.data.length).head?)) ||
      wordAltSearchAux ws (some c) cs

/-- `re.search` truth value of the `fix_case_sensitivity` pattern
`\b(select|from|where|order by|group by|having|join|inner|left|right|full|outer)\b`. -/
def searchCasePat (cs : List Char) : Bool :=
  wordAltSearchAux
    ["select", "from", "where", "order by", "group by", "having",
     "join", "inner", "left", "right", "full", "outer"] none cs

/-- `_add_limit_clause`. -/
def add_limit_clause (query : String) : String :=
  if !isInfixL "LIMIT".data (pyUpper query).data &&
      !isInfixL "TOP".data (pyUpper query).data then
    rstripWs (rstripChar ';' query) ++ " LIMIT 100;"
  else query

/-- `_suggest_specific_columns`: the containment test is on the
upper-cased query but the replacement is case-sensitive. -/
def suggest_specific_columns (query : String) : String :=
  if isInfixL "SELECT *".data (pyUpper query).data then
    strReplace query "SELECT *"
      "SELECT id, name -- TODO: Specify actual columns needed"
  else query

/-- Leftmost-match text of `(FROM\s+\w+)` (case-insensitive): both
quantifiers are forced maximal. -/
def fromClauseAt (cs : List Char) : Option (List Char) :=
  match litCIL "FROM" cs with
  | none => none
  | some r0 =>
      match grabP isPyWs r0 with
      | none => none
      | some (w1, r1) =>
          match grabP isWordChar r1 with
          | none => none
          | some (w2, _) => some (cs.take (4 + w1.length + w2.length))

/-- `_suggest_where_clause`: `str.replace` rewrites every case-sensitive
occurrence of the matched `FROM` clause text. -/
def suggest_where_clause (query : String) : String :=
  if !isInfixL "WHERE".data (pyUpper query).data &&
      !isInfixL "JOIN".data (pyUpper query).data then
    match scanFirst fromClauseAt query.data with
    | some fc =>
        strReplace query ⟨fc⟩
          (String.mk fc ++ " -- TODO: Consider adding WHERE clause for filtering")
    | none => query
  else query

def sqlKeywordList : List String :=
  ["SELECT", "FROM", "WHERE", "ORDER BY", "GROUP BY", "HAVING",
   "JOIN", "INNER", "LEFT", "RIGHT", "FULL", "OUTER", "ON", "AS",
   "AND", "OR", "NOT", "IN", "LIKE", "BETWEEN", "IS", "NULL"]

/-- `_normalize_sql_keywords`: uppercase every word-bounded
case-insensitive keyword occurrence, in list order. -/
def normalize_sql_keywords (query : String) : String :=
  sqlKeywordList.foldl (fun acc kw => replaceWordCI kw kw acc) query

/-- `\s+FROM` at the head: the run is forced maximal because `F` is not
whitespace. -/
def wsFromAt (cs : List Char) : Bool :=
  match grabP isPyWs cs with
  | some (_, r) => isPrefixCI "FROM".data r
  | none => false

/-- Lazy `(.*?)` under `re.DOTALL`: the least number of characters to
skip before `term` holds. -/
def lazyScan (term : List Char → Bool) : List Char → Option Nat
  | [] => if term [] then some 0 else none
  | c :: cs =>
      if term (c :: cs) then some 0
      else (lazyScan term cs).map (· + 1)

/-- Greedy backtracking over the leading `\s+` of
`SELECT\s+(.*?)\s+FROM`: try the maximal whitespace run first, then
shorter ones, and return the group of the first run length whose lazy
tail reaches `\s+FROM`. -/
def selectGroupK : Nat → List Char → Option (List Char)
  | 0, _ => none
  | k + 1, rest =>
      match lazyScan wsFromAt (rest.drop (k + 1)) with
      | some p => some ((rest.drop (k + 1)).take p)
      | none => selectGroupK k rest

/-- Match `SELECT\s+(.*?)\s+FROM` (`re.IGNORECASE | re.DOTALL`) at the
head, returning group 1. -/
def selectGroupAt (cs : List Char) : Option (List Char) :=
  match litCIL "SELECT" cs with
  | none => none
  | some rest => selectGroupK (rest.takeWhile isPyWs).length rest

/-- Position matcher of `re.sub(r'\s+AS\s+\w+', '', col,
flags=re.IGNORECASE)`: every quantifier is forced maximal by the
disjoint class that follows it. -/
def asAliasAt (cs : List Char) : Option (List Char × List Char) :=
  match grabP isPyWs cs with
  | none => none
  | some (_, r1) =>
      match litCIL "AS" r1 with
      | none => none
      | some r2 =>
          match grabP isPyWs r2 with
          | none => none
          | some (_, r3) =>
              match grabP isWordChar r3 with
              | none => none
              | some (_, r4) => some ([], r4)

/-- Position matcher of `re.sub(r'\w+\s*\(\s*([^)]+)\s*\)', r'\1', col)`.
The only live backtracking is on the `\s*` after `(` when the whole
parenthesis body is whitespace: the group then keeps the last whitespace
character. -/
def funcCallAt (cs : List Char) : Option (List Char × List Char) :=
  match grabP isWordChar cs with
  | none => none
  | some (_, r1) =>
      match r1.drop (r1.takeWhile isPyWs).length with
      | '(' :: r2 =>
          let w := r2.takeWhile isPyWs
          let r3 := r2.drop w.length
          match grabP (fun c => decide (c ≠ ')')) r3 with
          | some (g, r4) =>
              match r4 with
              | ')' :: r5 => some (g, r5)
              | _ => none
          | none =>
              match r3, w.getLast? with
              | ')' :: r5, some lc => some ([lc], r5)
              | _, _ => none
      | _ => none

/-- Position matcher of `re.sub(rf'\s+{clause}', repl, q,
flags=re.IGNORECASE)` for a clause starting with a non-whitespace
character. -/
def wsClauseAt (clause repl : String) (cs : List Char) :
    Option (List Char × List Char) :=
  match grabP isPyWs cs with
  | none => none
  | some (_, r1) =>
      match litCIL clause r1 with
      | none => none
      | some r2 => some (repl.data, r2)

/-- `_add_group_by_clause`. -/
def add_group_by_clause (query : String) : String :=
  if aggSearch query && !isInfixL "GROUP BY".data (pyUpper query).data then
    match scanFirst selectGroupAt query.data with
    | some selectPart =>
        let columns := (splitOnChar ',' selectPart).map
          (fun g => pyStrip ⟨g⟩)
        let nonAggregateCols := columns.filterMap (fun col =>
          if aggSearch col then none
          else
            let c1 := (runSub asAliasAt col).1
            let c2 := (runSub funcCallAt c1).1
            if pyStrip c2 ≠ "" ∧ pyStrip c2 ≠ "*" then some (pyStrip c2)
            else none)
        if nonAggregateCols ≠ [] then
          let gb := " GROUP BY " ++
            String.intercalate ", " (nonAggregateCols.take 3)
          match (["ORDER BY", "HAVING", "LIMIT"].filter
              (fun cl => isInfixL cl.data (pyUpper query).data)).head? with
          | some cl => (runSub (wsClauseAt cl (gb ++ " " ++ cl)) query).1
          | none => rstripChar ';' query ++ gb ++ ";"
        else query
    | none => query
  else query

/-- Terminator `(?:\s+ORDER|\s+LIMIT|$)` of the `HAVING` capture: a
whitespace run followed by `ORDER` or `LIMIT` (the run is forced
maximal), or the end of the string (`$` also matches just before a final
newline). -/
def havTermAt (cs : List Char) : Bool :=
  (match grabP isPyWs cs with
   | some (_, r) =>
       isPrefixCI "ORDER".data r || isPrefixCI "LIMIT".data r
   | none => false) ||
  decide (cs = []) || decide (cs = ['\n'])

/-- Lazy `(.*?)` without `re.DOTALL`: least skip on the current line. -/
def lazyLineScan (term : List Char → Bool) : List Char → Option Nat
  | [] => if term [] then some 0 else none
  | c :: cs =>
      if term (c :: cs) then some 0
      else if c = '\n' then none
      else (lazyLineScan term cs).map (· + 1)

/-- Greedy backtracking over the leading `\s+` of
`HAVING\s+(.*?)(?:\s+ORDER|\s+LIMIT|$)`, as in `selectGroupK`. -/
def havingGroupK : Nat → List Char → Option (List Char)
  | 0, _ => none
  | k + 1, rest =>
      match lazyLineScan havTermAt (rest.drop (k + 1)) with
      | some p => some ((rest.drop (k + 1)).take p)
      | none => havingGroupK k rest

/-- Match `HAVING\s+(.*?)(?:\s+ORDER|\s+LIMIT|$)` (case-insensitive) at
the head, returning group 1. -/
def havingGroupAt (cs : List Char) : Option (List Char) :=
  match litCIL "HAVING" cs with
  | none => none
  | some rest => havingGroupK (rest.takeWhile isPyWs).length rest

/-- Position matcher of `re.sub(r'\s+HAVING\s+', ' WHERE ', q,
flags=re.IGNORECASE)`. -/
def wsHavingWsAt (cs : List Char) : Option (List Char × List Char) :=
  match grabP isPyWs cs with
  | none => none
  | some (_, r1) =>
      match litCIL "HAVING" r1 with
      | none => none
      | some r2 =>
          match grabP isPyWs r2 with
          | none => none
          | some (_, r3) => some (" WHERE ".data, r3)

/-- `_fix_having_clause`. -/
def fix_having_clause (query : String) : String :=
  if isInfixL "HAVING".data (pyUpper query).data &&
      !isInfixL "GROUP BY".data (pyUpper query).data then
    match scanFirst havingGroupAt query.data with
    | some cond =>
        if aggSearch ⟨cond⟩ then query
        else (runSub wsHavingWsAt query).1
    | none => query
  else query

/-- The `common_mistakes` dict of `_initialize_query_patterns`, in
insertion order. -/
def commonMistakes : List (String × String) :=
  [("SELCET", "SELECT"), ("FORM", "FROM"), ("WEHRE", "WHERE"),
   ("GROPU BY", "GROUP BY"), ("OREDER BY", "ORDER BY"),
   ("HAVIN", "HAVING"), ("JION", "JOIN"), ("INNE JOIN", "INNER JOIN"),
   ("LEFY JOIN", "LEFT JOIN"), ("RIGH JOIN", "RIGHT JOIN"),
   ("LENGHT", "LENGTH"), ("SUBSTRIN", "SUBSTRING"),
   ("CONCATE", "CONCAT"), ("CONUT", "COUNT"), ("SUMM", "SUM"),
   ("AVRAGE", "AVG"), ("MAXIMU", "MAX"), ("MINIMU", "MIN")]

/-- The `operator_corrections` dict, in insertion order. -/
def operatorCorrections : List (String × String) :=
  [("=<", "<="), ("=>", ">="), ("!=", "<>"), ("==", "="),
   ("&&", "AND"), ("||", "OR"), ("!", "NOT")]

/-- `_fix_common_typos`: word-bounded case-insensitive typo substitution
in dict order, then plain `str.replace` for the operators. -/
def fix_common_typos (query : String) : String :=
  let c1 := commonMistakes.foldl
    (fun acc tc => replaceWordCI tc.1 tc.2 acc) query
  operatorCorrections.foldl (fun acc tc => strReplace acc tc.1 tc.2) c1

/-- Position matcher of `re.sub(r"SELECT\s+(\w+)\s+(\w+)(?=\s+FROM)",
r"SELECT \1, \2", q, flags=re.IGNORECASE)`: every quantifier is forced
by the disjointness of `\s` and `\w` (also inside the lookahead, which
consumes nothing). -/
def missingCommaSubAt (cs : List Char) : Option (List Char × List Char) :=
  match litCIL "SELECT" cs with
  | none => none
  | some r0 =>
      match grabP isPyWs r0 with
      | none => none
      | some (_, r1) =>
          match grabP isWordChar r1 with
          | none => none
          | some (a, r2) =>
              match grabP isPyWs r2 with
              | none => none
              | some (_, r3) =>
                  match grabP isWordChar r3 with
                  | none => none
                  | some (b, r4) =>
                      match grabP isPyWs r4 with
                      | none => none
                      | some (_, r5) =>
                          if isPrefixCI "FROM".data r5 then
                            some ("SELECT ".data ++ a ++ ", ".data ++ b, r4)
                          else none

/-- The `fix_missing_commas` rule lambda. -/
def fix_missing_commas (query : String) : String :=
  (runSub missingCommaSubAt query).1

/-- The `fix_quote_consistency` rule lambda,
`re.sub(r"['"]...['"]", r"\1", q)` with the quote-digits-quote matcher. -/
def fix_quote_consistency (query : String) : String :=
  (runSub quoteNumAt query).1

/-- A correction rule of `_initialize_correction_rules`: `search` is the
transcribed truth value of `re.search(pattern, q, re.IGNORECASE)` and
`fix` the rule's lambda. -/
structure CorrectionRule where
  name : String
  search : String → Bool
  fix : String → String
  confidence : ℚ
  description : String

def performance_optimizations : List CorrectionRule :=
  [{ name := "add_missing_limit",
     search := fun q => searchAddLimitPat q.data,
     fix := add_limit_clause,
     confidence := mkRat 9 10,
     description := "Add LIMIT clause to prevent large result sets" },
   { name := "optimize_select_star",
     search := fun q => searchSelectStarPat q.data,
     fix := suggest_specific_columns,
     confidence := mkRat 7 10,
     description := "Replace SELECT * with specific columns" },
   { name := "add_where_conditions",
     search := fun q => searchWherePat q.data,
     fix := suggest_where_clause,
     confidence := mkRat 1 2,
     description := "Suggest WHERE clause to filter results" }]

def syntax_corrections : List CorrectionRule :=
  [{ name := "fix_missing_commas",
     search := fun q => searchMissingCommaPat q.data,
     fix := fix_missing_commas,
     confidence := mkRat 4 5,
     description := "Add missing commas in SELECT clause" },
   { name := "fix_quote_consistency",
     search := fun q => searchQuotePat q.data,
     fix := fix_quote_consistency,
     confidence := mkRat 9 10,
     description := "Remove unnecessary quotes from numeric values" },
   { name := "fix_case_sensitivity",
     search := fun q => searchCasePat q.data,
     fix := normalize_sql_keywords,
     confidence := mkRat 3 5,
     description := "Normalize SQL keyword casing" }]

def semantic_corrections : List CorrectionRule :=
  [{ name := "fix_aggregation_without_group_by",
     search := fun q => searchAggPat q.data,
     fix := add_group_by_clause,
     confidence := mkRat 7 10,
     description := "Add GROUP BY clause for aggregate functions" },
   { name := "fix_having_without_group_by",
     search := fun q => searchHavingPat q.data,
     fix := fix_having_clause,
     confidence := mkRat 4 5,
     description := "Fix HAVING clause without GROUP BY" }]

/-- `_apply_correction_rule`: the rule lambdas are total functions here,
so the `try/except` wrapper never takes its fallback branch. -/
def apply_correction_rule (query : String) (rule : CorrectionRule) :
    String :=
  rule.fix query

/-- `_apply_conservative_corrections`. -/
def apply_conservative_corrections (query : String) :
    List CorrectionAttempt :=
  (syntax_corrections.filterMap (fun rule =>
    if mkRat 4 5 ≤ rule.confidence then
      let corrected := apply_correction_rule query rule
      if corrected ≠ query then
        some { strategy := .conservative, original_query := query,
               corrected_query := corrected,
               confidence := rule.confidence,
               corrections_applied := [rule.description],
               estimated_success_rate :=
                 ratMul rule.confidence (mkRat 9 10) }
      else none
    else none)) ++
  (let corrected_query := fix_common_typos query
   if corrected_query ≠ query then
     [{ strategy := .conservative, original_query := query,
        corrected_query := corrected_query,
        confidence := mkRat 19 20,
        corrections_applied := ["Fixed common typos"],
        estimated_success_rate := mkRat 9 10 }]
   else [])

/-- `_apply_moderate_corrections`. -/
def apply_moderate_corrections (query : String) :
    List CorrectionAttempt :=
  apply_conservative_corrections query ++
  (performance_optimizations.filterMap (fun rule =>
    if mkRat 7 10 ≤ rule.confidence ∧ rule.search query = true then
      let corrected := rule.fix query
      if corrected ≠ query then
        some { strategy := .moderate, original_query := query,
               corrected_query := corrected,
               confidence := rule.confidence,
               corrections_applied := [rule.description],
               estimated_success_rate :=
                 ratMul rule.confidence (mkRat 4 5) }
      else none
    else none)) ++
  (semantic_corrections.filterMap (fun rule =>
    if mkRat 3 5 ≤ rule.confidence ∧ rule.search query = true then
      let corrected := rule.fix query
      if corrected ≠ query then
        some { strategy := .moderate, original_query := query,
               corrected_query := corrected,
               confidence := rule.confidence,
               corrections_applied := [rule.description],
               estimated_success_rate :=
                 ratMul rule.confidence (mkRat 7 10) }
      else none
    else none))

/-- `_apply_aggressive_corrections`. -/
def apply_aggressive_corrections (query : String) :
    List CorrectionAttempt :=
  apply_moderate_corrections query ++
  ((performance_optimizations ++ syntax_corrections ++
      semantic_corrections).filterMap (fun rule =>
    if rule.confidence < mkRat 3 5 ∧ rule.search query = true then
      let corrected := rule.fix query
      if corrected ≠ query then
        some { strategy := .aggressive, original_query := query,
               corrected_query := corrected,
               confidence := rule.confidence,
               corrections_applied := [rule.description],
               estimated_success_rate :=
                 ratMul rule.confidence (mkRat 1 2) }
      else none
    else none))

/-- Descending comparison on the sort key
`(confidence, estimated_success_rate)` of `attempts.sort(key=...,
reverse=True)`. -/
def attemptKeyGe (y x : CorrectionAttempt) : Bool :=
  decide (x.confidence < y.confidence) ||
    (decide (y.confidence = x.confidence) &&
      decide (x.estimated_success_rate ≤ y.estimated_success_rate))

/-- The attempts accumulated by `correct_query` before the final sort:
the recovery-engine attempt first (only when a non-empty error message
is present and recovery succeeds; on success `corrected_query` is `some`
and `getD` extracts it, and `corrections_applied or []` is `getD []`),
then the strategy corrections. -/
def correctAttempts (st : EngineState) (query : String)
    (error_message : Option String) (strategy : CorrectionStrategy) :
    List CorrectionAttempt :=
  (match error_message with
   | some err =>
       if err ≠ "" then
         let r := recover_from_error st err query
         if r.success then
           [{ strategy := strategy, original_query := query,
              corrected_query := r.corrected_query.getD "",
              confidence := r.confidence,
              corrections_applied := r.corrections_applied.getD [],
              estimated_success_rate := r.confidence }]
         else []
       else []
   | none => []) ++
  (match strategy with
   | .conservative => apply_conservative_corrections query
   | .moderate => apply_moderate_corrections query
   | .aggressive => apply_aggressive_corrections query)

/-- `correct_query`: accumulate attempts, then sort by
`(confidence, estimated_success_rate)` descending with Python's stable
sort. -/
def correct_query (st : EngineState) (query : String)
    (error_message : Option String) (strategy : CorrectionStrategy) :
    List CorrectionAttempt :=
  sortDescBy attemptKeyGe (correctAttempts st query error_message strategy)

/-!
## `SemanticTableSelector.select_relevant_tables`
(semantic_table_selector.py)

The selector state keeps the fields the method reads.  The similarity
scores returned by `get_table_relevance_scores` depend on the embedding
model, so they enter as data (`scores`, in the dict's insertion order):
quantifying over them covers every question.  The statistics updates are
logging-only; the `try/except` around the semantic branch guards model
calls and the embedded branch is total.
-/

inductive IndexingStatus
  | not_started
  | in_progress
  | completed
  | failed
  | disabled
deriving DecidableEq

structure SelectorState where
  enabled : Bool
  status : IndexingStatus
  hasEmbeddings : Bool
  scores : List (String × ℚ)
  similarity_threshold : ℚ
  max_tables : Nat
deriving DecidableEq

/-- `max_tables = max_tables or self.max_tables` (Python truthiness:
`None` and `0` both fall back to the constructor default). -/
def effectiveMaxTables (st : SelectorState) : Option Nat → Nat
  | some m => if m ≠ 0 then m else st.max_tables
  | none => st.max_tables

/-- Descending stable comparison of `(table, score)` pairs by score only
(`sorted(..., key=lambda x: x[1], reverse=True)`). -/
def scoreGe (y x : String × ℚ) : Bool :=
  decide (x.2 ≤ y.2)

/-- The threshold loop: append while under the cap and at or above the
similarity threshold. -/
def thresholdSelect (thr : ℚ) (m : Nat)
    (sorted_tables : List (String × ℚ)) : List String :=
  sorted_tables.foldl (fun acc ts =>
    if thr ≤ ts.2 ∧ acc.length < m then acc ++ [ts.1] else acc) []

/-- The robustness padding: if fewer than 3 tables were selected, extend
with not-yet-selected tables in original input order, up to the cap. -/
def padSelected (available_tables : List String) (m : Nat)
    (selected : List String) : List String :=
  if selected.length < 3 then
    selected ++ (available_tables.filter
      (fun t => !selected.contains t)).take (m - selected.length)
  else selected

/-- `select_relevant_tables`: the four fallback guards, the empty-scores
fallback, then filter to available tables, stable sort by descending
score, threshold loop and padding. -/
def select_relevant_tables (st : SelectorState)
    (available_tables : List String) (mt? : Option Nat) : List String :=
  let max_tables := effectiveMaxTables st mt?
  if st.enabled = false then available_tables.take max_tables
  else if st.status = .in_progress then available_tables.take max_tables
  else if st.status = .failed then available_tables.take max_tables
  else if st.hasEmbeddings = false then available_tables.take max_tables
  else if st.scores = [] then available_tables.take max_tables
  else
    let available_scores := st.scores.filter
      (fun ts => available_tables.contains ts.1)
    let sorted_tables := sortDescBy scoreGe available_scores
    padSelected available_tables max_tables
      (thresholdSelect st.similarity_threshold max_tables sorted_tables)

/-!
## `EnhancedUniversalSQLTool._run` (enhanced_sql_tool.py)

`db.run` enters as the oracle `exec`; alongside the returned string the
embedding records the trace of queries passed to `exec`, in order, so
"no execution attempt" is the empty trace.  Logging and statistics
writes have no bearing on the returned value.
-/

/-- Position matcher of `re.sub(r'\s+', ' ', sql)`. -/
def wsRunToSpace (cs : List Char) : Option (List Char × List Char) :=
  match grabP isPyWs cs with
  | some (_, r) => some ([' '], r)
  | none => none

/-- Match the opening-fence pattern (three backticks, an optional
`sql`/`SQL`, then greedy `\s*`) at the head, returning the suffix.  The
alternatives are case-exact and mutually exclusive, and `\s*` is freely
maximal because any continuation succeeds. -/
def fenceOpenAt (cs : List Char) : Option (List Char) :=
  if isPrefixL "```".data cs then
    let r := cs.drop 3
    let r1 := if isPrefixL "sql".data r then r.drop 3
      else if isPrefixL "SQL".data r then r.drop 3
      else r
    some (r1.drop (r1.takeWhile isPyWs).length)
  else none

/-- `re.sub` of the opening-fence pattern with `re.MULTILINE` `^`:
line-start anchored scan, threading the previous character. -/
def subFenceOpenAux : Nat → Option Char → List Char → List Char
  | 0, _, cs => cs
  | fuel + 1, prev, cs =>
      match (if prev = none ∨ prev = some '\n' then fenceOpenAt cs
             else none) with
      | some rest =>
          subFenceOpenAux fuel
            (match (cs.take (cs.length - rest.length)).getLast? with
             | some c => some c
             | none => prev) rest
      | none =>
          match cs with
          | [] => []
          | c :: cs' => c :: subFenceOpenAux fuel (some c) cs'

/-- Greedy backtracking of the closing fence's `\s*` against the
multiline `$` (end of string or before a newline): the largest number of
whitespace characters, at most `k`, after which `$` holds. -/
def fenceCloseK (r : List Char) : Nat → Option Nat
  | 0 =>
      if r.head? = none ∨ r.head? = some '\n' then some 0 else none
  | k + 1 =>
      if (r.drop (k + 1)).head? = none ∨
          (r.drop (k + 1)).head? = some '\n' then some (k + 1)
      else fenceCloseK r k

/-- Position matcher of the closing-fence pattern (three backticks, then
`\s*` up to a multiline `$`). -/
def fenceCloseAt (cs : List Char) : Option (List Char × List Char) :=
  if isPrefixL "```".data cs then
    let r := cs.drop 3
    match fenceCloseK r (r.takeWhile isPyWs).length with
    | some k => some ([], r.drop k)
    | none => none
  else none

/-- `_clean_sql_query` (custom_sql_tool.py, inherited): strip markdown
fences and backticks, collapse whitespace runs to single spaces, strip,
and ensure a trailing semicolon on a non-empty result. -/
def clean_sql_query (sql : String) : String :=
  let s1 : String := ⟨subFenceOpenAux (sql.data.length + 1) none sql.data⟩
  let s2 := (runSub fenceCloseAt s1).1
  let s3 := strReplace s2 "`" ""
  let s4 := pyStrip (runSub wsRunToSpace s3).1
  if s4 ≠ "" ∧ s4.data.getLast? ≠ some ';' then s4 ++ ";" else s4

/-- `_attempt_error_recovery`: the recovery result only on success (the
`try/except` cannot fire for the total embedding, and the statistics
writes are elided). -/
def attempt_error_recovery (st : EngineState) (q err : String) :
    Option RecoveryResult :=
  let r := recover_from_error st err q
  if r.success then some r else none

/-- `_get_progressive_strategy`. -/
def get_progressive_strategy (attempt : Nat) : CorrectionStrategy :=
  if attempt = 0 then .conservative
  else if attempt = 1 then .moderate
  else .aggressive

/-- `_apply_progressive_strategy` with the tool's confidence threshold
`0.6`: first attempt at or above the threshold, else the best attempt in
aggressive mode, else the query unchanged. -/
def apply_progressive_strategy (st : EngineState) (q : String)
    (strategy : CorrectionStrategy) (err : String) : String :=
  let attempts := correct_query st q (some err) strategy
  match attempts.find? (fun a => decide (mkRat 3 5 ≤ a.confidence)) with
  | some a => a.corrected_query
  | none =>
      if strategy = .aggressive then
        match attempts.head? with
        | some best => best.corrected_query
        | none => q
      else q

/-- `_handle_final_error`, reduced to the data that determines it: the
source message also interpolates the wall-clock duration and the
`get_correction_suggestions` listing, text that never feeds back into
control flow and is elided here. -/
def handle_final_error (original finalq error_message : String)
    (attempts : Nat) : String :=
  "Query execution failed after " ++ toString (attempts + 1) ++
    " attempts. Final error: " ++ error_message ++
    (if original ≠ finalq then " Query was modified during retry attempts."
     else "")

/-- The `for attempt in range(self._max_retry_attempts + 1)` loop of
`_run`, from attempt index `attempt` with `fuel = maxRetry + 1 -
attempt`; auto-correction and progressive strategies are enabled, as in
`__init__`.  Returns the output string and the trace of executed
queries. -/
def runAttempts (exec : String → Except String String)
    (st : EngineState) (maxRetry : Nat) (original : String) :
    Nat → Nat → String → String × List String
  | 0, _, current =>
      (handle_final_error original current "Max retries exceeded" maxRetry,
        [])
  | fuel + 1, attempt, current =>
      match exec current with
      | .ok result => (result, [current])
      | .error e =>
          if maxRetry ≤ attempt then
            (handle_final_error original current e attempt, [current])
          else
            match attempt_error_recovery st current e with
            | some r =>
                let out := runAttempts exec st maxRetry original fuel
                  (attempt + 1) (r.corrected_query.getD "")
                (out.1, current :: out.2)
            | none =>
                if attempt < maxRetry then
                  let corrected := apply_progressive_strategy st current
                    (get_progressive_strategy attempt) e
                  if corrected ≠ current then
                    let out := runAttempts exec st maxRetry original fuel
                      (attempt + 1) corrected
                    (out.1, current :: out.2)
                  else
                    let out := runAttempts exec st maxRetry original fuel
                      (attempt + 1) current
                    (out.1, current :: out.2)
                else
                  let out := runAttempts exec st maxRetry original fuel
                    (attempt + 1) current
                  (out.1, current :: out.2)

/-- `EnhancedUniversalSQLTool._run`: validate, short-circuit unsafe
queries with the security error message, clean the query and enter the
retry loop (`_max_retry_attempts = 3`).  The trace is empty exactly when
`db.run` was never invoked. -/
def enhanced_run (exec : String → Except String String)
    (st : EngineState) (cfg : SecurityConfig) (query : String) :
    String × List String :=
  let v := validate_query_security cfg query
  if v.1 = false then
    ("Security Error: " ++ v.2.1 ++ ". Details: " ++
      String.intercalate ", " (v.2.2.violations ++ v.2.2.warnings), [])
  else
    runAttempts exec st 3 query 4 0 (clean_sql_query query)

/-!
## Spec-side comparison definitions

`specSeverityRank`/`specMaxLevel` render the specification's phrase "the
highest individual severity among the matches" (ordinal severity
`safe<low<medium<high<critical`); they are compared against the source's
`calculate_risk_score`.
-/

/-- Ordinal rank of a severity string (spec glossary:
`safe<low<medium<high<critical`). -/
def specSeverityRank (s : String) : Nat :=
  if s = "critical" then 4
  else if s = "high" then 3
  else if s = "medium" then 2
  else if s = "low" then 1
  else 0

/-- The highest individual severity among a list of matches, `"safe"` for
an empty list (spec-side definition). -/
def specMaxLevel (l : List DetectedPattern) : String :=
  l.foldl
    (fun cur p =>
      if specSeverityRank cur < specSeverityRank p.risk_level then
        p.risk_level
      else cur) "safe"

/-- Spec-side selection for the error classifier: "among all matches, the
one with highest declared confidence is selected — ties keep first-seen
order": each element is kept unless a strictly more confident one follows
it. -/
def specPickFirstMax : List ErrorPattern → Option ErrorPattern
  | [] => none
  | p :: ps =>
      match specPickFirstMax ps with
      | none => some p
      | some q => if q.confidence > p.confidence then some q else some p

/-!
## Helper lemmas

Generic facts about the string/list primitives and the validation steps,
shared by the claim theorems below.
-/

theorem isPrefixL_iff {n : List Char} : ∀ {h : List Char},
    isPrefixL n h = true ↔ ∃ t, h = n ++ t := by
  induction n with
  | nil => intro h; simp [isPrefixL]
  | cons a as ih =>
      intro h
      cases h with
      | nil => simp [isPrefixL]
      | cons b bs =>
          simp only [isPrefixL, Bool.and_eq_true, decide_eq_true_eq, ih,
            List.cons_append, List.cons.injEq]
          constructor
          · rintro ⟨rfl, t, rfl⟩; exact ⟨t, rfl, rfl⟩
          · rintro ⟨t, rfl, rfl⟩; exact ⟨rfl, t, rfl⟩

theorem isInfixL_iff {n : List Char} : ∀ {h : List Char},
    isInfixL n h = true ↔ ∃ a b, h = a ++ n ++ b := by
  intro h
  induction h with
  | nil =>
      simp only [isInfixL, isPrefixL_iff]
      constructor
      · rintro ⟨t, ht⟩; exact ⟨[], t, by simpa using ht⟩
      · rintro ⟨a, b, hab⟩
        rcases List.append_eq_nil.mp hab.symm with ⟨h1, rfl⟩
        rcases List.append_eq_nil.mp h1 with ⟨rfl, rfl⟩
        exact ⟨[], rfl⟩
  | cons c cs ih =>
      simp only [isInfixL, Bool.or_eq_true, isPrefixL_iff, ih]
      constructor
      · rintro (⟨t, ht⟩ | ⟨a, b, rfl⟩)
        · exact ⟨[], t, by simpa using ht⟩
        · exact ⟨c :: a, b, by simp⟩
      · rintro ⟨a, b, hab⟩
        cases a with
        | nil => exact Or.inl ⟨b, by simpa using hab⟩
        | cons d ds =>
            right
            simp only [List.cons_append, List.cons.injEq] at hab
            exact ⟨ds, b, hab.2⟩

theorem dropWhile_decomp (p : Char → Bool) (c : Char) (hc : p c = false)
    (m : List Char) :
    ∀ a : List Char, ∃ a',
      (a ++ (c :: m)).dropWhile p = a' ++ (c :: m) := by
  intro a
  induction a with
  | nil => exact ⟨[], by simp [List.dropWhile_cons, hc]⟩
  | cons d ds ih =>
      by_cases hd : p d = true
      · obtain ⟨a', ha'⟩ := ih
        exact ⟨a', by simp only [List.cons_append, List.dropWhile_cons, hd,
          if_true, ha']⟩
      · exact ⟨d :: ds, by simp [List.dropWhile_cons, hd]⟩

theorem infix_pyStrip {c d : Char} {m : List Char} (hc : isPyWs c = false)
    (hd : isPyWs d = false) {s : String}
    (h : isInfixL (c :: m ++ [d]) s.data = true) :
    isInfixL (c :: m ++ [d]) (pyStrip s).data = true := by
  obtain ⟨a, b, hab⟩ := isInfixL_iff.mp h
  have hab' : s.data = a ++ (c :: (m ++ [d] ++ b)) := by
    rw [hab]; simp
  obtain ⟨a', ha'⟩ := dropWhile_decomp (fun x => isPyWs x) c hc
    (m ++ [d] ++ b) a
  rw [← hab'] at ha'
  have hrev : (a' ++ (c :: (m ++ [d] ++ b))).reverse
      = b.reverse ++ (d :: (m.reverse ++ [c] ++ a'.reverse)) := by
    simp [List.reverse_append]
  obtain ⟨b', hb'⟩ := dropWhile_decomp (fun x => isPyWs x) d hd
    (m.reverse ++ [c] ++ a'.reverse) b.reverse
  apply isInfixL_iff.mpr
  refine ⟨a', b'.reverse, ?_⟩
  show (pyStrip s).data = _
  unfold pyStrip
  simp only [ha', hrev, hb']
  simp [List.reverse_append]

theorem rsearch_append (ci : Bool) (r : Regex) {cs : List Char}
    (h : ∀ p, pmatch ci r p cs = true) :
    ∀ (a : List Char) (p : Option Char), rsearch ci r p (a ++ cs) = true := by
  intro a
  induction a with
  | nil =>
      intro p
      cases cs with
      | nil => simpa [rsearch] using h p
      | cons c cs' => simp [rsearch, h p]
  | cons c a' ih =>
      intro p
      simp [rsearch, ih (some c)]

/-- After consuming `"; DROP "`, the first `critical_violations` regex is in
an accepting state whatever follows. -/
theorem pmatch_dml (p : Option Char) (rest : List Char) :
    pmatch true critDmlRegex p
      (';' :: ' ' :: 'D' :: 'R' :: 'O' :: 'P' :: ' ' :: rest) = true := by
  cases rest <;> rfl

theorem reSearch_dml {s : String} (h : strContains s "; DROP TABLE x" = true) :
    reSearch true critDmlRegex s = true := by
  obtain ⟨a, b, hab⟩ := isInfixL_iff.mp h
  have hsplit : s.data
      = a ++ (';' :: ' ' :: 'D' :: 'R' :: 'O' :: 'P' :: ' ' ::
          ("TABLE x".data ++ b)) := by
    rw [hab]; simp
  rw [reSearch, hsplit]
  exact rsearch_append true critDmlRegex
    (fun p => pmatch_dml p ("TABLE x".data ++ b)) a none

end SqlAgent

namespace SqlAgent

/-! Validation-step lemmas. -/

/-- Fold preservation: any per-rule step that keeps a critical risk level and
a non-empty violations list does so over a whole rule list. -/
theorem foldl_keep {α : Type} (f : SecurityReport → α → SecurityReport)
    (hf : ∀ r a, r.risk_level = "critical" → r.violations ≠ [] →
      (f r a).risk_level = "critical" ∧ (f r a).violations ≠ []) :
    ∀ (l : List α) (r : SecurityReport), r.risk_level = "critical" →
      r.violations ≠ [] →
      (l.foldl f r).risk_level = "critical" ∧ (l.foldl f r).violations ≠ [] := by
  intro l
  induction l with
  | nil => intro r h1 h2; exact ⟨h1, h2⟩
  | cons a l ih =>
      intro r h1 h2
      obtain ⟨h1', h2'⟩ := hf r a h1 h2
      simpa [List.foldl_cons] using ih _ h1' h2'

theorem critStep_keep (q : String) (r : SecurityReport) (rule : Regex × String)
    (h1 : r.risk_level = "critical") (h2 : r.violations ≠ []) :
    (critStep q r rule).risk_level = "critical" ∧
      (critStep q r rule).violations ≠ [] := by
  unfold critStep
  split <;> simp_all

theorem mediumStep_keep (q : String) (r : SecurityReport)
    (rule : Regex × String × String)
    (h1 : r.risk_level = "critical") (h2 : r.violations ≠ []) :
    (mediumStep q r rule).risk_level = "critical" ∧
      (mediumStep q r rule).violations ≠ [] := by
  unfold mediumStep
  split
  · dsimp only
    split <;> split <;> simp_all
  · exact ⟨h1, h2⟩

theorem perfStep_keep (q : String) (r : SecurityReport)
    (rule : Regex × String × String)
    (h1 : r.risk_level = "critical") (h2 : r.violations ≠ []) :
    (perfStep q r rule).risk_level = "critical" ∧
      (perfStep q r rule).violations ≠ [] := by
  unfold perfStep
  split
  · split <;> simp_all
  · exact ⟨h1, h2⟩

theorem vStepCritical_dml (q : String) (r : SecurityReport)
    (h : reSearch true critDmlRegex q = true) :
    (vStepCritical q r).risk_level = "critical" ∧
      (vStepCritical q r).violations ≠ [] := by
  unfold vStepCritical criticalViolationRules
  rw [List.foldl_cons]
  refine foldl_keep (critStep q) (critStep_keep q) _ _ ?_ ?_ <;>
    · unfold critStep
      simp [h]

theorem vStepSuspicious_spec (up : String) (r : SecurityReport) :
    (vStepSuspicious up r).risk_level =
      (if 2 < (suspiciousFound up).length then "medium" else r.risk_level) ∧
    (vStepSuspicious up r).violations = r.violations ∧
    (vStepSuspicious up r).is_safe = r.is_safe := by
  unfold vStepSuspicious
  by_cases hf : suspiciousFound up = []
  · simp [hf]
  · by_cases hl : 2 < (suspiciousFound up).length <;> simp [hf, hl]

theorem vStepRequireLimit_keep (cfg : SecurityConfig) (up : String)
    (r : SecurityReport) (h1 : r.risk_level = "critical")
    (h2 : r.violations ≠ []) :
    (vStepRequireLimit cfg up r).risk_level = "critical" ∧
      (vStepRequireLimit cfg up r).violations ≠ [] := by
  unfold vStepRequireLimit
  split <;> simp_all

theorem vStepLimitValue_keep (cfg : SecurityConfig) (up : String)
    (r : SecurityReport) (h1 : r.risk_level = "critical")
    (h2 : r.violations ≠ []) :
    (vStepLimitValue cfg up r).risk_level = "critical" ∧
      (vStepLimitValue cfg up r).violations ≠ [] := by
  unfold vStepLimitValue
  split
  · split <;> simp_all
  · exact ⟨h1, h2⟩

theorem vStepJoins_spec (cfg : SecurityConfig) (up : String)
    (r : SecurityReport) :
    (vStepJoins cfg up r).risk_level = r.risk_level ∧
    (vStepJoins cfg up r).violations = r.violations ∧
    (vStepJoins cfg up r).is_safe = r.is_safe := by
  unfold vStepJoins
  dsimp only
  split <;> simp

theorem vStepParens_spec (cfg : SecurityConfig) (q : String)
    (r : SecurityReport) :
    (vStepParens cfg q r).risk_level = r.risk_level ∧
    (vStepParens cfg q r).violations = r.violations ∧
    (vStepParens cfg q r).is_safe = r.is_safe := by
  unfold vStepParens
  dsimp only
  split <;> simp

theorem vStepFinal_violations (r : SecurityReport) :
    (vStepFinal r).violations = r.violations := by
  unfold vStepFinal
  split
  · dsimp only; split <;> rfl
  · rfl

theorem vStepFinal_notSafe (r : SecurityReport) (h : r.violations ≠ []) :
    (vStepFinal r).is_safe = false := by
  unfold vStepFinal
  rw [if_pos h]
  dsimp only
  split <;> rfl

theorem vStepFinal_risk (r : SecurityReport)
    (h : r.risk_level = "medium" ∨ r.risk_level = "critical") :
    (vStepFinal r).risk_level = r.risk_level := by
  unfold vStepFinal
  split
  · dsimp only
    split <;> rcases h with h | h <;> simp_all
  · rfl

end SqlAgent

namespace SqlAgent

theorem vStepMedium_keep (q : String) (r : SecurityReport)
    (h1 : r.risk_level = "critical") (h2 : r.violations ≠ []) :
    (vStepMedium q r).risk_level = "critical" ∧
      (vStepMedium q r).violations ≠ [] := by
  unfold vStepMedium
  exact foldl_keep (mediumStep q) (mediumStep_keep q) _ r h1 h2

theorem vStepPerformance_keep (q : String) (r : SecurityReport)
    (h1 : r.risk_level = "critical") (h2 : r.violations ≠ []) :
    (vStepPerformance q r).risk_level = "critical" ∧
      (vStepPerformance q r).violations ≠ [] := by
  unfold vStepPerformance
  exact foldl_keep (perfStep q) (perfStep_keep q) _ r h1 h2

theorem vStepRequireLimit_spec (cfg : SecurityConfig) (up : String)
    (r : SecurityReport) :
    (vStepRequireLimit cfg up r).risk_level = r.risk_level ∧
    (r.violations ≠ [] → (vStepRequireLimit cfg up r).violations ≠ []) := by
  unfold vStepRequireLimit
  split
  · exact ⟨rfl, fun _ => by simp⟩
  · exact ⟨rfl, fun h => h⟩

theorem vStepLimitValue_spec (cfg : SecurityConfig) (up : String)
    (r : SecurityReport) :
    (vStepLimitValue cfg up r).risk_level = r.risk_level ∧
    (r.violations ≠ [] → (vStepLimitValue cfg up r).violations ≠ []) := by
  unfold vStepLimitValue
  split
  · split
    · exact ⟨rfl, fun _ => by simp⟩
    · exact ⟨rfl, fun h => h⟩
  · exact ⟨rfl, fun h => h⟩

end SqlAgent

namespace SqlAgent

/-- Steps 5–11 plus the final assessment, on a report that enters with a
critical risk level and a non-empty violations list (as produced by a hit
on the first `critical_violations` rule): the outcome is unsafe, and the
risk level is `"critical"` unless more than two suspicious functions
overwrite it to `"medium"` in step 7. -/
theorem vStepsAfterCritical_spec (cfg : SecurityConfig) (q up : String)
    (r : SecurityReport) (h1 : r.risk_level = "critical")
    (h2 : r.violations ≠ []) :
    (vStepsAfterCritical cfg q up r).is_safe = false ∧
    (vStepsAfterCritical cfg q up r).risk_level =
      (if 2 < (suspiciousFound up).length then "medium" else "critical") := by
  unfold vStepsAfterCritical
  obtain ⟨h5r, h5v⟩ := vStepMedium_keep q r h1 h2
  obtain ⟨h6r, h6v⟩ := vStepPerformance_keep q (vStepMedium q r) h5r h5v
  obtain ⟨h7r, h7v, _⟩ :=
    vStepSuspicious_spec up (vStepPerformance q (vStepMedium q r))
  rw [h6r] at h7r
  have h7v' :
      (vStepSuspicious up (vStepPerformance q (vStepMedium q r))).violations
        ≠ [] := by rw [h7v]; exact h6v
  obtain ⟨h8r, h8v⟩ := vStepRequireLimit_spec cfg up
    (vStepSuspicious up (vStepPerformance q (vStepMedium q r)))
  obtain ⟨h9r, h9v⟩ := vStepLimitValue_spec cfg up
    (vStepRequireLimit cfg up
      (vStepSuspicious up (vStepPerformance q (vStepMedium q r))))
  obtain ⟨h10r, h10v, _⟩ := vStepJoins_spec cfg up
    (vStepLimitValue cfg up (vStepRequireLimit cfg up
      (vStepSuspicious up (vStepPerformance q (vStepMedium q r)))))
  obtain ⟨h11r, h11v, _⟩ := vStepParens_spec cfg q
    (vStepJoins cfg up (vStepLimitValue cfg up (vStepRequireLimit cfg up
      (vStepSuspicious up (vStepPerformance q (vStepMedium q r))))))
  have hviol : (vStepParens cfg q (vStepJoins cfg up (vStepLimitValue cfg up
      (vStepRequireLimit cfg up (vStepSuspicious up
        (vStepPerformance q (vStepMedium q r))))))).violations ≠ [] := by
    rw [h11v, h10v]
    exact h9v (h8v h7v')
  have hrisk : (vStepParens cfg q (vStepJoins cfg up (vStepLimitValue cfg up
      (vStepRequireLimit cfg up (vStepSuspicious up
        (vStepPerformance q (vStepMedium q r))))))).risk_level =
      (if 2 < (suspiciousFound up).length then "medium" else "critical") := by
    rw [h11r, h10r, h9r, h8r, h7r]
  refine ⟨vStepFinal_notSafe _ hviol, ?_⟩
  rw [vStepFinal_risk _ ?_, hrisk]
  rw [hrisk]
  by_cases hs : 2 < (suspiciousFound up).length
  · rw [if_pos hs]; exact Or.inl rfl
  · rw [if_neg hs]; exact Or.inr rfl

/-!
## Claim theorems: security validation (C1, C2, C3)
-/

set_option maxHeartbeats 4000000 in
/-- C1 (counterexample): the query `CAST(x AS INT) /* c */` triggers two
medium-severity injection findings (aggregate score 100 ≥ 75), so the
detector marks it unsafe, but only critical/high findings become
violations: the report has `is_safe = false` with an *empty* violations
list, refuting `is_safe == (violations is empty)`. -/
theorem validate_unsafe_empty_violations_cex :
    (validateReport "CAST(x AS INT) /* c */").is_safe = false ∧
    (validateReport "CAST(x AS INT) /* c */").violations = [] := by decide

/-- C1 (amended): one direction of the claimed equivalence holds — whenever
the violations list is non-empty the report is marked unsafe (equivalently,
`is_safe = true` implies the violations list is empty).  The converse is
refuted by the counterexample. -/
theorem validate_violations_imply_unsafe (cfg : SecurityConfig) (sql : String)
    (h : (validate_query_security cfg sql).2.2.violations ≠ []) :
    (validate_query_security cfg sql).2.2.is_safe = false := by
  unfold validate_query_security at h ⊢
  dsimp only at h ⊢
  by_cases hq : pyStrip sql = ""
  · rw [if_pos hq]
  · rw [if_neg hq] at h ⊢
    dsimp only at h ⊢
    unfold vStepsAfterCritical at h ⊢
    rw [vStepFinal_violations] at h
    exact vStepFinal_notSafe _ h

set_option maxHeartbeats 4000000 in
theorem validate_violations_imply_unsafe_witness :
    (validate_query_security defaultSecurityConfig "; DROP TABLE x").2.2.violations ≠ [] ∧
    (validate_query_security defaultSecurityConfig "; DROP TABLE x").2.2.is_safe = false :=
  ⟨by decide,
   validate_violations_imply_unsafe defaultSecurityConfig "; DROP TABLE x" (by decide)⟩

set_option maxHeartbeats 8000000 in
/-- C2 (counterexample): the query
`CHAR(1),HEX(2),SLEEP(3); DROP TABLE x` contains `; DROP TABLE x` yet its
report has `risk_level = "medium"`, not `"critical"`: three distinct
suspicious function names unconditionally overwrite the risk level in
validation step 7.  (`is_safe` is still `false`.) -/
theorem dropTable_risk_cex :
    strContains "CHAR(1),HEX(2),SLEEP(3); DROP TABLE x" "; DROP TABLE x"
      = true ∧
    (validateReport "CHAR(1),HEX(2),SLEEP(3); DROP TABLE x").is_safe
      = false ∧
    (validateReport "CHAR(1),HEX(2),SLEEP(3); DROP TABLE x").risk_level
      = "medium" := by decide

/-- C2 (amended): every query containing `; DROP TABLE x` is reported
unsafe, and its risk level is `"critical"` unless more than two suspicious
function names are found, in which case step 7 overwrites it to
`"medium"`. -/
theorem dropTable_unsafe (sql : String)
    (h : strContains sql "; DROP TABLE x" = true) :
    (validateReport sql).is_safe = false ∧
    (validateReport sql).risk_level =
      (if 2 < (suspiciousFound (pyUpper (pyStrip sql))).length then "medium"
       else "critical") := by
  have hinfix : isInfixL (';' :: (" DROP TABLE ".data ++ ['x'])) sql.data
      = true := h
  have hstrip : isInfixL (';' :: (" DROP TABLE ".data ++ ['x']))
      (pyStrip sql).data = true :=
    infix_pyStrip (by decide) (by decide) hinfix
  have hsearch : reSearch true critDmlRegex (pyStrip sql) = true :=
    reSearch_dml (s := pyStrip sql) hstrip
  have hne : ¬ pyStrip sql = "" := by
    intro h0
    rw [h0] at hstrip
    exact absurd hstrip (by decide)
  unfold validateReport validate_query_security
  dsimp only
  rw [if_neg hne]
  dsimp only
  obtain ⟨h4r, h4v⟩ := vStepCritical_dml (pyStrip sql)
    (vStepLength defaultSecurityConfig (pyStrip sql)
      (vStepInjection (pyStrip sql) initialReport)) hsearch
  exact vStepsAfterCritical_spec defaultSecurityConfig (pyStrip sql)
    (pyUpper (pyStrip sql)) _ h4r h4v

set_option maxHeartbeats 4000000 in
theorem dropTable_unsafe_witness :
    strContains "a; DROP TABLE x" "; DROP TABLE x" = true ∧
    (validateReport "a; DROP TABLE x").is_safe = false ∧
    (validateReport "a; DROP TABLE x").risk_level = "critical" := by
  have h := dropTable_unsafe "a; DROP TABLE x" (by decide)
  exact ⟨by decide, h.1, h.2.trans (by decide)⟩

set_option maxHeartbeats 4000000 in
/-- C3 (counterexample): `SELECT id FROM t` matches the first whitelist
pattern, yet (with the default `require_limit=True`) validation reports it
unsafe for lacking a LIMIT clause: whitelisting does not make a query
safe. -/
theorem whitelist_not_safe_cex :
    is_whitelisted "SELECT id FROM t" = true ∧
    (validateReport "SELECT id FROM t").is_safe = false := by decide

set_option maxHeartbeats 8000000 in
/-- C3 (amended): whitelisting is informational only and does not imply a
safe verdict (see the counterexample).  The specification's example
whitelisted query `SELECT id, name FROM t WHERE id=1 LIMIT 10;` *is*
validated as safe with an empty violations list. -/
theorem whitelist_example_safe :
    is_whitelisted "SELECT id, name FROM t WHERE id=1 LIMIT 10;" = true ∧
    (validateReport "SELECT id, name FROM t WHERE id=1 LIMIT 10;").is_safe
      = true ∧
    (validateReport "SELECT id, name FROM t WHERE id=1 LIMIT 10;").violations
      = [] := by decide

end SqlAgent

namespace SqlAgent

/-!
## Claim theorems: risk scoring (C4)
-/

/-- The loop of `calculate_risk_score` accumulates the weight sum and, via
`bumpRiskLevel`, the ordinal maximum severity. -/
theorem riskFold_spec (l : List DetectedPattern)
    (h : ∀ p ∈ l, p.risk_level ∈
      (["critical", "high", "medium", "low"] : List String)) :
    ∀ (n : Nat) (cur : String),
      cur ∈ (["safe", "low", "medium", "high", "critical"] : List String) →
      l.foldl (fun (acc : Nat × String) p =>
          (acc.1 + riskWeight p.risk_level, bumpRiskLevel acc.2 p.risk_level))
        (n, cur)
        = (n + (l.map (fun p => riskWeight p.risk_level)).sum,
           l.foldl (fun c p =>
             if specSeverityRank c < specSeverityRank p.risk_level then
               p.risk_level else c) cur) := by
  induction l with
  | nil => intro n cur _; simp
  | cons p l ih =>
      intro n cur hcur
      have hp := h p (List.mem_cons_self p l)
      have hrest : ∀ q ∈ l, q.risk_level ∈
          (["critical", "high", "medium", "low"] : List String) :=
        fun q hq => h q (List.mem_cons_of_mem _ hq)
      simp only [List.mem_cons, List.not_mem_nil, or_false] at hp hcur
      have hstep : bumpRiskLevel cur p.risk_level
            = (if specSeverityRank cur < specSeverityRank p.risk_level then
                p.risk_level else cur)
          ∧ (if specSeverityRank cur < specSeverityRank p.risk_level then
                p.risk_level else cur)
              ∈ (["safe", "low", "medium", "high", "critical"] :
                  List String) := by
        rcases hp with hp | hp | hp | hp <;>
          rcases hcur with hcur | hcur | hcur | hcur | hcur <;>
          rw [hp, hcur] <;> decide
      rw [List.foldl_cons, List.foldl_cons, hstep.1]
      rw [ih hrest (n + riskWeight p.risk_level) _ hstep.2]
      simp [Nat.add_assoc]

/-- C4: `calculate_risk_score` returns the per-match severity weight sum
capped at 100 together with the highest individual severity
(`specMaxLevel`, the spec-side ordinal maximum, which is `"critical"` for
any list containing a critical match regardless of the capped sum), and
`(0, "safe")` on the empty list. -/
theorem calculate_risk_score_spec (l : List DetectedPattern)
    (h : ∀ p ∈ l, p.risk_level ∈
      (["critical", "high", "medium", "low"] : List String)) :
    calculate_risk_score l
      = (min ((l.map (fun p => riskWeight p.risk_level)).sum) 100,
         specMaxLevel l) ∧
    calculate_risk_score [] = (0, "safe") := by
  refine ⟨?_, by decide⟩
  unfold calculate_risk_score
  by_cases hl : l = []
  · subst hl; simp [specMaxLevel]
  · rw [if_neg hl]
    dsimp only
    rw [riskFold_spec l h 0 "safe" (by decide)]
    simp [specMaxLevel]

theorem calculate_risk_score_spec_witness :
    (∀ p ∈ ([⟨"injection", "d1", "critical"⟩, ⟨"evasion", "d2", "low"⟩,
             ⟨"evasion", "d3", "low"⟩] : List DetectedPattern),
        p.risk_level ∈ (["critical", "high", "medium", "low"] : List String)) ∧
    calculate_risk_score
        ([⟨"injection", "d1", "critical"⟩, ⟨"evasion", "d2", "low"⟩,
          ⟨"evasion", "d3", "low"⟩] : List DetectedPattern)
      = (min ((([⟨"injection", "d1", "critical"⟩, ⟨"evasion", "d2", "low"⟩,
            ⟨"evasion", "d3", "low"⟩] : List DetectedPattern).map
              (fun p => riskWeight p.risk_level)).sum) 100,
         specMaxLevel
           ([⟨"injection", "d1", "critical"⟩, ⟨"evasion", "d2", "low"⟩,
             ⟨"evasion", "d3", "low"⟩] : List DetectedPattern)) :=
  ⟨by decide, (calculate_risk_score_spec _ (by decide)).1⟩

end SqlAgent

namespace SqlAgent

/-!
## Claim theorems: error classification and recovery (C6, C7)
-/

/-- Folding `analyze_error`'s loop over the whole table equals folding the
plain maximum update over the matching patterns only. -/
theorem bestFold_filter (msg : String) :
    ∀ (l : List ErrorPattern) (acc : Option ErrorPattern × ℚ),
      l.foldl (bestStep msg) acc
        = (l.filter (fun p => (p.scanner.run msg).isSome)).foldl bestUpd acc := by
  intro l
  induction l with
  | nil => intro acc; rfl
  | cons p ps ih =>
      intro acc
      by_cases hp : (p.scanner.run msg).isSome
      · simp [List.foldl_cons, List.filter_cons, hp, bestStep, ih]
      · simp only [List.foldl_cons, List.filter_cons] at *
        simp [hp, bestStep, ih]

/-- The maximum-update fold started at an already-selected pattern agrees
with the spec-side first-of-maximum selection. -/
theorem bestUpd_fold_spec :
    ∀ (ps : List ErrorPattern) (p : ErrorPattern),
      ps.foldl bestUpd (some p, p.confidence)
        = (match specPickFirstMax ps with
           | none => (some p, p.confidence)
           | some q =>
               if q.confidence > p.confidence then (some q, q.confidence)
               else (some p, p.confidence)) := by
  intro ps
  induction ps with
  | nil => intro p; rfl
  | cons r rs ih =>
      intro p
      rw [List.foldl_cons]
      simp only [bestUpd]
      have hcons : specPickFirstMax (r :: rs)
          = (match specPickFirstMax rs with
             | none => some r
             | some q =>
                 if q.confidence > r.confidence then some q else some r) := rfl
      rw [hcons]
      by_cases hrp : r.confidence > p.confidence
      · rw [if_pos hrp, ih r]
        cases hpick : specPickFirstMax rs with
        | none => simp [hrp]
        | some q =>
            by_cases hqr : q.confidence > r.confidence
            · have hqp : q.confidence > p.confidence := lt_trans hrp hqr
              simp [hqr, hqp]
            · simp [hqr, hrp]
      · rw [if_neg hrp, ih p]
        cases hpick : specPickFirstMax rs with
        | none => simp [hrp]
        | some q =>
            by_cases hqr : q.confidence > r.confidence
            · simp [hqr]
            · have hqp : ¬ q.confidence > p.confidence := by
                push_neg at hrp hqr ⊢
                exact le_trans hqr hrp
              simp [hqr, hqp, hrp]

/-- Every error pattern has positive confidence (they all declare the
default `0.8`). -/
theorem errorPatterns_pos : ∀ p ∈ errorPatterns, 0 < p.confidence := by
  intro p hp
  simp only [errorPatterns, List.mem_cons, List.not_mem_nil, or_false] at hp
  rcases hp with rfl | rfl | rfl | rfl | rfl | rfl | rfl | rfl | rfl | rfl |
    rfl | rfl | rfl <;> decide

/-- C6: `analyze_error` classifies by trying every pattern and selecting,
among the matching ones, the first with maximal declared confidence
(`specPickFirstMax`, the spec-side rendering of "highest confidence, ties
keep first-seen order"); when no pattern matches the result is
`UNKNOWN_ERROR` with confidence 0. -/
theorem analyze_error_spec (msg : String) :
    analyze_error msg
      = (match specPickFirstMax (matchedErrorPatterns msg) with
         | some p => (p.error_type, p.confidence, errorMatches msg)
         | none => (.unknown_error, 0, errorMatches msg)) := by
  unfold analyze_error bestErrorPattern
  rw [bestFold_filter msg errorPatterns (none, 0)]
  have hmatch : errorPatterns.filter (fun p => (p.scanner.run msg).isSome)
      = matchedErrorPatterns msg := rfl
  rw [hmatch]
  have hpos : ∀ p ∈ matchedErrorPatterns msg, 0 < p.confidence :=
    fun p hp => errorPatterns_pos p (List.mem_of_mem_filter hp)
  cases hm : matchedErrorPatterns msg with
  | nil => rfl
  | cons p ps =>
      have hp0 : 0 < p.confidence := by
        apply hpos; rw [hm]; exact List.mem_cons_self p ps
      rw [List.foldl_cons]
      have hstep : bestUpd (none, 0) p = (some p, p.confidence) := by
        unfold bestUpd
        rw [if_pos (by simpa using hp0)]
      rw [hstep, bestUpd_fold_spec ps p]
      have hcons : specPickFirstMax (p :: ps)
          = (match specPickFirstMax ps with
             | none => some p
             | some q =>
                 if q.confidence > p.confidence then some q else some p) := rfl
      rw [hcons]
      cases hpick : specPickFirstMax ps with
      | none => rfl
      | some q =>
          by_cases hq : q.confidence > p.confidence <;> simp [hq]

/-!
## Recovery-success helper, stable-sort lemmas, C5 and C10
-/

/-- Success of `recover_from_error` is equivalent to carrying a non-empty
corrected query different from the input (shared helper). -/
theorem recover_success_iff_aux (st : EngineState) (err q : String) :
    (recover_from_error st err q).success = true ↔
      ∃ q', (recover_from_error st err q).corrected_query = some q' ∧
        q' ≠ "" ∧ q' ≠ q := by
  unfold recover_from_error
  dsimp only
  split
  · simp
  · split
    · simp
    · split
      · rename_i hg
        constructor
        · intro _
          exact ⟨_, rfl, hg.1, hg.2⟩
        · intro _
          rfl
      · simp

/-- On success, the extracted corrected query differs from the input. -/
theorem recover_success_getD_ne (st : EngineState) (err q : String)
    (h : (recover_from_error st err q).success = true) :
    (recover_from_error st err q).corrected_query.getD "" ≠ q := by
  obtain ⟨q', hq, _, hne⟩ := (recover_success_iff_aux st err q).mp h
  rw [hq]
  simpa using hne

/-- Inserting into a `ge`-descending chain keeps it a chain. -/
theorem insertDescBy_chain {α : Type} (ge : α → α → Bool)
    (htot : ∀ a b, ge a b = true ∨ ge b a = true) (x : α) :
    ∀ l, List.Chain' (fun a b => ge a b = true) l →
      List.Chain' (fun a b => ge a b = true) (insertDescBy ge x l) := by
  intro l
  induction l with
  | nil => intro _; simp [insertDescBy]
  | cons y ys ih =>
      intro h
      rw [List.chain'_cons'] at h
      simp only [insertDescBy]
      by_cases hge : ge y x = true
      · rw [if_pos hge, List.chain'_cons']
        refine ⟨?_, ih h.2⟩
        intro b hb
        cases ys with
        | nil =>
            simp [insertDescBy] at hb
            subst hb
            exact hge
        | cons z zs =>
            by_cases hz : ge z x = true
            · simp only [insertDescBy, hz, if_true] at hb
              simp at hb
              subst hb
              exact h.1 z (by simp)
            · simp only [insertDescBy, hz, if_false] at hb
              simp at hb
              subst hb
              exact hge
      · rw [if_neg hge, List.chain'_cons']
        refine ⟨?_, List.chain'_cons'.mpr h⟩
        intro b hb
        simp at hb
        subst hb
        rcases htot x y with h1 | h1
        · exact h1
        · exact absurd h1 hge

/-- `insertDescBy` splits the list at the insertion point: everything
before is `ge` the new element, the first element after is not. -/
theorem insertDescBy_decomp {α : Type} (ge : α → α → Bool) (x : α) :
    ∀ l : List α, ∃ l1 l2, l = l1 ++ l2 ∧
      insertDescBy ge x l = l1 ++ x :: l2 ∧
      (∀ y ∈ l1, ge y x = true) ∧
      (∀ y ∈ l2.head?, ge y x = false) := by
  intro l
  induction l with
  | nil =>
      refine ⟨[], [], rfl, rfl, ?_, ?_⟩ <;> intro y hy <;> simp at hy
  | cons y ys ih =>
      cases hge : ge y x with
      | true =>
          obtain ⟨l1, l2, he, hi, h1, h2⟩ := ih
          refine ⟨y :: l1, l2, by rw [List.cons_append, ← he], ?_, ?_, h2⟩
          · simp only [insertDescBy, hge, if_true]
            rw [hi, List.cons_append]
          · intro z hz
            rcases List.mem_cons.mp hz with rfl | hz
            · exact hge
            · exact h1 z hz
      | false =>
          refine ⟨[], y :: ys, rfl, ?_, ?_, ?_⟩
          · simp [insertDescBy, hge]
          · intro z hz
            simp at hz
          · intro z hz
            simp at hz
            subst hz
            exact hge

/-- Chain of the first element over the whole tail (transitivity). -/
theorem chain'_head_ge {α : Type} (ge : α → α → Bool)
    (htrans : ∀ a b c, ge a b = true → ge b c = true → ge a c = true) :
    ∀ (y : α) (t : List α),
      List.Chain' (fun a b => ge a b = true) (y :: t) →
      ∀ z ∈ t, ge y z = true := by
  intro y t
  induction t generalizing y with
  | nil =>
      intro _ z hz
      cases hz
  | cons w ws ih =>
      intro h z hz
      rw [List.chain'_cons] at h
      rcases List.mem_cons.mp hz with rfl | hz
      · exact h.1
      · exact htrans y w z h.1 (ih w h.2 z hz)

/-- A chain restricted to a suffix is a chain. -/
theorem chain'_append_right {α : Type} (R : α → α → Prop) :
    ∀ (l1 l2 : List α), List.Chain' R (l1 ++ l2) → List.Chain' R l2 := by
  intro l1
  induction l1 with
  | nil =>
      intro l2 h
      exact h
  | cons a l1 ih =>
      intro l2 h
      rw [List.cons_append, List.chain'_cons'] at h
      exact ih l2 h.2

/-- Stability of a single insertion: filtering by a key class `p` whose
members are pairwise `ge` appends the new element after the existing
ones. -/
theorem insertDescBy_filter {α : Type} (ge : α → α → Bool) (p : α → Bool)
    (htrans : ∀ a b c, ge a b = true → ge b c = true → ge a c = true)
    (hp : ∀ a b, p a = true → p b = true → ge a b = true)
    (x : α) (l : List α)
    (hc : List.Chain' (fun a b => ge a b = true) l) :
    (insertDescBy ge x l).filter p
      = l.filter p ++ (if p x then [x] else []) := by
  obtain ⟨l1, l2, he, hi, h1, h2⟩ := insertDescBy_decomp ge x l
  subst he
  rw [hi, List.filter_append, List.filter_append, List.filter_cons]
  have hl2 : p x = true → l2.filter p = [] := by
    intro hpx
    cases l2 with
    | nil => rfl
    | cons y0 t =>
        have hy0 : ge y0 x = false := h2 y0 (by simp)
        have hch2 : List.Chain' (fun a b => ge a b = true) (y0 :: t) :=
          chain'_append_right _ l1 (y0 :: t) hc
        rw [List.filter_eq_nil]
        intro z hz
        rcases List.mem_cons.mp hz with rfl | hzt
        · intro hpz
          have hzz := hp z x hpz hpx
          rw [hy0] at hzz
          exact Bool.noConfusion hzz
        · intro hpz
          have hzx : ge z x = true := hp z x hpz hpx
          have hy0z : ge y0 z = true :=
            chain'_head_ge ge htrans y0 t hch2 z hzt
          have hyx := htrans y0 z x hy0z hzx
          rw [hy0] at hyx
          exact Bool.noConfusion hyx
  by_cases hpx : p x = true
  · rw [hl2 hpx]
    simp [hpx]
  · simp [hpx]

/-- The insertion fold keeps the chain invariant. -/
theorem sortFold_chain {α : Type} (ge : α → α → Bool)
    (htot : ∀ a b, ge a b = true ∨ ge b a = true) :
    ∀ (l acc : List α), List.Chain' (fun a b => ge a b = true) acc →
      List.Chain' (fun a b => ge a b = true)
        (l.foldl (fun acc x => insertDescBy ge x acc) acc) := by
  intro l
  induction l with
  | nil =>
      intro acc h
      exact h
  | cons x xs ih =>
      intro acc h
      rw [List.foldl_cons]
      exact ih _ (insertDescBy_chain ge htot x acc h)

/-- Stability of the insertion fold: filtering by a key class commutes
with the sort. -/
theorem sortFold_filter {α : Type} (ge : α → α → Bool) (p : α → Bool)
    (htot : ∀ a b, ge a b = true ∨ ge b a = true)
    (htrans : ∀ a b c, ge a b = true → ge b c = true → ge a c = true)
    (hp : ∀ a b, p a = true → p b = true → ge a b = true) :
    ∀ (l acc : List α), List.Chain' (fun a b => ge a b = true) acc →
      (l.foldl (fun acc x => insertDescBy ge x acc) acc).filter p
        = acc.filter p ++ l.filter p := by
  intro l
  induction l with
  | nil =>
      intro acc h
      simp
  | cons x xs ih =>
      intro acc h
      rw [List.foldl_cons, ih _ (insertDescBy_chain ge htot x acc h),
        insertDescBy_filter ge p htrans hp x acc h, List.filter_cons]
      by_cases hpx : p x = true
      · simp [hpx]
      · simp [hpx]

/-- `insertDescBy` only adds the inserted element, as `all` sees it. -/
theorem insertDescBy_all {α : Type} (ge : α → α → Bool) (f : α → Bool)
    (x : α) : ∀ l, (insertDescBy ge x l).all f = (f x && l.all f) := by
  intro l
  induction l with
  | nil => simp [insertDescBy]
  | cons y ys ih =>
      cases hge : ge y x with
      | true =>
          simp only [insertDescBy, hge, if_true, List.all_cons, ih]
          cases f x <;> cases f y <;> simp
      | false => simp [insertDescBy, hge]

/-- The insertion fold preserves `all`. -/
theorem sortFold_all {α : Type} (ge : α → α → Bool) (f : α → Bool) :
    ∀ (l acc : List α),
      (l.foldl (fun acc x => insertDescBy ge x acc) acc).all f
        = (acc.all f && l.all f) := by
  intro l
  induction l with
  | nil =>
      intro acc
      simp
  | cons x xs ih =>
      intro acc
      rw [List.foldl_cons, ih, insertDescBy_all, List.all_cons]
      cases f x <;> cases acc.all f <;> simp

/-- The sort key comparison is total. -/
theorem attemptKeyGe_total (a b : CorrectionAttempt) :
    attemptKeyGe a b = true ∨ attemptKeyGe b a = true := by
  unfold attemptKeyGe
  simp only [Bool.or_eq_true, Bool.and_eq_true, decide_eq_true_eq]
  rcases lt_trichotomy a.confidence b.confidence with h | h | h
  · exact Or.inr (Or.inl h)
  · rcases le_total a.estimated_success_rate b.estimated_success_rate
      with he | he
    · exact Or.inr (Or.inr ⟨h.symm, he⟩)
    · exact Or.inl (Or.inr ⟨h, he⟩)
  · exact Or.inl (Or.inl h)

/-- The sort key comparison is transitive. -/
theorem attemptKeyGe_trans (a b c : CorrectionAttempt)
    (h1 : attemptKeyGe a b = true) (h2 : attemptKeyGe b c = true) :
    attemptKeyGe a c = true := by
  unfold attemptKeyGe at h1 h2 ⊢
  simp only [Bool.or_eq_true, Bool.and_eq_true, decide_eq_true_eq]
    at h1 h2 ⊢
  rcases h1 with h1 | ⟨h1e, h1r⟩ <;> rcases h2 with h2 | ⟨h2e, h2r⟩
  · exact Or.inl (lt_trans h2 h1)
  · exact Or.inl (by rw [← h2e]; exact h1)
  · exact Or.inl (by rw [h1e]; exact h2)
  · exact Or.inr ⟨h1e.trans h2e, le_trans h2r h1r⟩

/-- Two attempts with the same key compare `ge` (ties are kept). -/
theorem attemptKeyGe_keyEq (ck ek : ℚ) (a b : CorrectionAttempt)
    (ha : (decide (a.confidence = ck) &&
      decide (a.estimated_success_rate = ek)) = true)
    (hb : (decide (b.confidence = ck) &&
      decide (b.estimated_success_rate = ek)) = true) :
    attemptKeyGe a b = true := by
  simp only [Bool.and_eq_true, decide_eq_true_eq] at ha hb
  unfold attemptKeyGe
  simp only [Bool.or_eq_true, Bool.and_eq_true, decide_eq_true_eq]
  exact Or.inr ⟨ha.1.trans hb.1.symm, le_of_eq (hb.2.trans ha.2.symm)⟩

/-- The key comparison implies descending confidence. -/
theorem attemptKeyGe_conf (a b : CorrectionAttempt)
    (h : attemptKeyGe a b = true) : b.confidence ≤ a.confidence := by
  unfold attemptKeyGe at h
  simp only [Bool.or_eq_true, Bool.and_eq_true, decide_eq_true_eq] at h
  rcases h with h | ⟨he, _⟩
  · exact le_of_lt h
  · exact le_of_eq he.symm

/-- Attempts produced by a rule `filterMap` keep the input as
`original_query` and change it. -/
theorem filterMapRule_all (q : String)
    (f : CorrectionRule → Option CorrectionAttempt)
    (hf : ∀ r a, f r = some a →
      a.original_query = q ∧ a.corrected_query ≠ q)
    (rules : List CorrectionRule) :
    (rules.filterMap f).all (fun a =>
      decide (a.original_query = q) &&
        decide (a.corrected_query ≠ a.original_query)) = true := by
  rw [List.all_eq_true]
  intro a ha
  obtain ⟨r, _, hr⟩ := List.mem_filterMap.mp ha
  obtain ⟨h1, h2⟩ := hf r a hr
  simp [h1, h2]

/-- Conservative corrections never emit identity rewrites. -/
theorem conservative_no_identity (q : String) :
    (apply_conservative_corrections q).all (fun a =>
      decide (a.original_query = q) &&
        decide (a.corrected_query ≠ a.original_query)) = true := by
  unfold apply_conservative_corrections
  simp only [List.all_append, Bool.and_eq_true]
  refine ⟨?_, ?_⟩
  · apply filterMapRule_all
    intro r a h
    by_cases h1 : mkRat 4 5 ≤ r.confidence
    · rw [if_pos h1] at h
      by_cases h2 : apply_correction_rule q r ≠ q
      · rw [if_pos h2] at h
        obtain rfl := Option.some.inj h
        exact ⟨rfl, h2⟩
      · rw [if_neg h2] at h
        simp at h
    · rw [if_neg h1] at h
      simp at h
  · by_cases h2 : fix_common_typos q ≠ q
    · rw [if_pos h2]
      simp [h2]
    · rw [if_neg h2]
      rfl

/-- Moderate corrections never emit identity rewrites. -/
theorem moderate_no_identity (q : String) :
    (apply_moderate_corrections q).all (fun a =>
      decide (a.original_query = q) &&
        decide (a.corrected_query ≠ a.original_query)) = true := by
  unfold apply_moderate_corrections
  simp only [List.all_append, Bool.and_eq_true]
  refine ⟨⟨conservative_no_identity q, ?_⟩, ?_⟩
  · apply filterMapRule_all
    intro r a h
    by_cases h1 : mkRat 7 10 ≤ r.confidence ∧ r.search q = true
    · rw [if_pos h1] at h
      by_cases h2 : r.fix q ≠ q
      · rw [if_pos h2] at h
        obtain rfl := Option.some.inj h
        exact ⟨rfl, h2⟩
      · rw [if_neg h2] at h
        simp at h
    · rw [if_neg h1] at h
      simp at h
  · apply filterMapRule_all
    intro r a h
    by_cases h1 : mkRat 3 5 ≤ r.confidence ∧ r.search q = true
    · rw [if_pos h1] at h
      by_cases h2 : r.fix q ≠ q
      · rw [if_pos h2] at h
        obtain rfl := Option.some.inj h
        exact ⟨rfl, h2⟩
      · rw [if_neg h2] at h
        simp at h
    · rw [if_neg h1] at h
      simp at h

/-- Aggressive corrections never emit identity rewrites. -/
theorem aggressive_no_identity (q : String) :
    (apply_aggressive_corrections q).all (fun a =>
      decide (a.original_query = q) &&
        decide (a.corrected_query ≠ a.original_query)) = true := by
  unfold apply_aggressive_corrections
  simp only [List.all_append, Bool.and_eq_true]
  refine ⟨moderate_no_identity q, ?_⟩
  apply filterMapRule_all
  intro r a h
  by_cases h1 : r.confidence < mkRat 3 5 ∧ r.search q = true
  · rw [if_pos h1] at h
    by_cases h2 : r.fix q ≠ q
    · rw [if_pos h2] at h
      obtain rfl := Option.some.inj h
      exact ⟨rfl, h2⟩
    · rw [if_neg h2] at h
      simp at h
  · rw [if_neg h1] at h
    simp at h

/-- The pre-sort attempt list never holds identity rewrites. -/
theorem correctAttempts_no_identity (st : EngineState) (q : String)
    (err : Option String) (strat : CorrectionStrategy) :
    (correctAttempts st q err strat).all (fun a =>
      decide (a.original_query = q) &&
        decide (a.corrected_query ≠ a.original_query)) = true := by
  unfold correctAttempts
  rw [List.all_append, Bool.and_eq_true]
  refine ⟨?_, ?_⟩
  · cases err with
    | none => rfl
    | some e =>
        dsimp only
        by_cases h1 : e ≠ ""
        · rw [if_pos h1]
          by_cases h2 : (recover_from_error st e q).success = true
          · rw [if_pos h2]
            have hne := recover_success_getD_ne st e q h2
            simp [hne]
          · rw [if_neg h2]
            rfl
        · rw [if_neg h1]
          rfl
  · cases strat with
    | conservative => exact conservative_no_identity q
    | moderate => exact moderate_no_identity q
    | aggressive => exact aggressive_no_identity q

/-- C7: a recovery result is successful exactly when it carries a non-empty
corrected query different from the input; in particular, whenever the
dispatched recovery function returns the query unchanged (or empty), the
result has `success = false`. -/
theorem recover_from_error_success_iff (st : EngineState)
    (err q : String) :
    (recover_from_error st err q).success = true ↔
      ∃ q', (recover_from_error st err q).corrected_query = some q' ∧
        q' ≠ "" ∧ q' ≠ q :=
  recover_success_iff_aux st err q

/-- C5: `correct_query` returns its attempts sorted descending by the
pair `(confidence, estimated_success_rate)` — adjacent attempts satisfy
the descending key comparison, in particular adjacent confidences are
non-increasing — and the sort is stable: for every key value, the
attempts carrying that key keep their discovery order
(`correctAttempts`). -/
theorem correct_query_sorted (st : EngineState) (q : String)
    (err : Option String) (strat : CorrectionStrategy) :
    List.Chain' (fun a b => attemptKeyGe a b = true)
        (correct_query st q err strat) ∧
      List.Chain' (fun a b : CorrectionAttempt =>
          b.confidence ≤ a.confidence)
        (correct_query st q err strat) ∧
      ∀ ck ek : ℚ,
        (correct_query st q err strat).filter (fun a =>
            decide (a.confidence = ck) &&
              decide (a.estimated_success_rate = ek))
          = (correctAttempts st q err strat).filter (fun a =>
              decide (a.confidence = ck) &&
                decide (a.estimated_success_rate = ek)) := by
  have hch : List.Chain' (fun a b => attemptKeyGe a b = true)
      (correct_query st q err strat) := by
    unfold correct_query sortDescBy
    exact sortFold_chain attemptKeyGe attemptKeyGe_total _ []
      List.chain'_nil
  refine ⟨hch, hch.imp ?_, ?_⟩
  · intro a b h
    exact attemptKeyGe_conf a b h
  · intro ck ek
    unfold correct_query sortDescBy
    rw [sortFold_filter attemptKeyGe _ attemptKeyGe_total
      attemptKeyGe_trans (attemptKeyGe_keyEq ck ek) _ []
      List.chain'_nil]
    simp

/-- C10: every attempt returned by `correct_query` keeps the input as
`original_query` and carries a `corrected_query` different from it:
identity rewrites are filtered at every construction site, so a query
that no rule changes yields an empty list. -/
theorem correct_query_no_identity (st : EngineState) (q : String)
    (err : Option String) (strat : CorrectionStrategy) :
    (correct_query st q err strat).all (fun a =>
      decide (a.original_query = q) &&
        decide (a.corrected_query ≠ a.original_query)) = true := by
  unfold correct_query sortDescBy
  rw [sortFold_all]
  simp only [List.all_nil, Bool.true_and]
  exact correctAttempts_no_identity st q err strat

/-!
## Selector floor lemmas, C8 and C9
-/

/-- A list without duplicates is no longer than any list containing all
its members. -/
theorem nodup_length_le {α : Type} [DecidableEq α] :
    ∀ (l s : List α), l.Nodup → (∀ x ∈ l, x ∈ s) →
      l.length ≤ s.length := by
  intro l
  induction l with
  | nil =>
      intro s _ _
      simp
  | cons a t ih =>
      intro s hnd hsub
      have ha : a ∈ s := hsub a (by simp)
      have ht : ∀ x ∈ t, x ∈ s.erase a := by
        intro x hx
        have hxs : x ∈ s := hsub x (by simp [hx])
        have hxa : x ≠ a := by
          intro he
          subst he
          exact (List.nodup_cons.mp hnd).1 hx
        exact (List.mem_erase_of_ne hxa).mpr hxs
      have hlt := ih (s.erase a) (List.nodup_cons.mp hnd).2 ht
      have hlen : (s.erase a).length = s.length - 1 :=
        List.length_erase_of_mem ha
      have hpos : 0 < s.length := List.length_pos_of_mem ha
      simp only [List.length_cons]
      omega

/-- Splitting a length over a boolean filter and its negation. -/
theorem length_filter_split {α : Type} (p : α → Bool) :
    ∀ l : List α, l.length = (l.filter p).length +
      (l.filter (fun a => !p a)).length := by
  intro l
  induction l with
  | nil => rfl
  | cons a t ih =>
      rw [List.filter_cons, List.filter_cons]
      cases h : p a with
      | true =>
          simp [h]
          omega
      | false =>
          simp [h]
          omega

/-- The threshold fold never exceeds the cap. -/
theorem thresholdFold_len_le (thr : ℚ) (m : Nat) :
    ∀ (l : List (String × ℚ)) (acc : List String), acc.length ≤ m →
      (l.foldl (fun acc ts =>
        if thr ≤ ts.2 ∧ acc.length < m then acc ++ [ts.1] else acc)
          acc).length ≤ m := by
  intro l
  induction l with
  | nil =>
      intro acc h
      exact h
  | cons t ts ih =>
      intro acc h
      rw [List.foldl_cons]
      by_cases hc : thr ≤ t.2 ∧ acc.length < m
      · rw [if_pos hc]
        apply ih
        have h2 := hc.2
        simp only [List.length_append, List.length_cons, List.length_nil]
        omega
      · rw [if_neg hc]
        exact ih _ h

/-- `thresholdSelect` never exceeds the cap. -/
theorem thresholdSelect_len_le (thr : ℚ) (m : Nat)
    (l : List (String × ℚ)) : (thresholdSelect thr m l).length ≤ m :=
  thresholdFold_len_le thr m l [] (by simp)

/-- The padding step restores the floor when the cap is at least 3 and
the available tables have no duplicates. -/
theorem padSelected_floor (av : List String) (m : Nat)
    (sel : List String) (hnd : av.Nodup) (hm : 3 ≤ m)
    (hle : sel.length ≤ m) :
    min 3 av.length ≤ (padSelected av m sel).length := by
  unfold padSelected
  by_cases h3 : sel.length < 3
  · rw [if_pos h3]
    have hsplit := length_filter_split (fun t => sel.contains t) av
    have hsub : (av.filter (fun t => sel.contains t)).length
        ≤ sel.length := by
      apply nodup_length_le _ sel (List.Nodup.filter _ hnd)
      intro x hx
      have h1 := (List.mem_filter.mp hx).2
      simpa using h1
    simp only [List.length_append, List.length_take]
    omega
  · rw [if_neg h3]
    omega

/-- C8 (amended): with no duplicate table names and an effective cap of
at least 3, `select_relevant_tables` returns at least
`min 3 available.length` tables, on the semantic path and on every
fallback path. -/
theorem select_tables_floor (st : SelectorState)
    (av : List String) (mt? : Option Nat)
    (hnd : av.Nodup) (hm : 3 ≤ effectiveMaxTables st mt?) :
    min 3 av.length ≤ (select_relevant_tables st av mt?).length := by
  unfold select_relevant_tables
  dsimp only
  have htake : min 3 av.length
      ≤ (av.take (effectiveMaxTables st mt?)).length := by
    rw [List.length_take]
    exact min_le_min hm (le_refl av.length)
  split
  · exact htake
  · split
    · exact htake
    · split
      · exact htake
      · split
        · exact htake
        · split
          · exact htake
          · exact padSelected_floor av _ _ hnd hm
              (thresholdSelect_len_le _ _ _)

theorem select_tables_floor_witness :
    (["users", "orders", "items", "logs"] : List String).Nodup ∧
      3 ≤ effectiveMaxTables
        { enabled := true, status := .completed, hasEmbeddings := true,
          scores := [("users", mkRat 9 10), ("logs", mkRat 1 10)],
          similarity_threshold := mkRat 3 10, max_tables := 8 } none ∧
      min 3 (["users", "orders", "items", "logs"] : List String).length
        ≤ (select_relevant_tables
            { enabled := true, status := .completed, hasEmbeddings := true,
              scores := [("users", mkRat 9 10), ("logs", mkRat 1 10)],
              similarity_threshold := mkRat 3 10, max_tables := 8 }
            ["users", "orders", "items", "logs"] none).length :=
  ⟨by decide, by decide,
    select_tables_floor _ _ _ (by decide) (by decide)⟩

/-- C8 (counterexample): with semantic selection disabled and
`max_tables=1` passed by the caller, three available tables yield a
single-table result, below the claimed floor
`min(3, len(available_tables)) = 3`. -/
theorem select_tables_floor_cex :
    (select_relevant_tables
        { enabled := false, status := .not_started,
          hasEmbeddings := false, scores := [],
          similarity_threshold := mkRat 3 10, max_tables := 8 }
        ["a", "b", "c"] (some 1)).length
      < min 3 (["a", "b", "c"] : List String).length := by
  decide

/-- C9: whenever security validation reports unsafe, `_run` returns the
security error message immediately and the database execution oracle is
never invoked (empty execution trace): fail-closed, no execution or
retry attempt. -/
theorem enhanced_run_blocks (exec : String → Except String String)
    (st : EngineState) (cfg : SecurityConfig) (q : String)
    (h : (validate_query_security cfg q).1 = false) :
    enhanced_run exec st cfg q
      = ("Security Error: " ++ (validate_query_security cfg q).2.1 ++
          ". Details: " ++ String.intercalate ", "
            ((validate_query_security cfg q).2.2.violations ++
              (validate_query_security cfg q).2.2.warnings), []) := by
  unfold enhanced_run
  dsimp only
  rw [if_pos h]

theorem enhanced_run_blocks_witness :
    (validate_query_security defaultSecurityConfig "").1 = false ∧
      enhanced_run (fun _ => Except.ok "done") emptyEngineState
          defaultSecurityConfig ""
        = ("Security Error: Empty query. Details: Empty query not allowed",
            []) := by
  refine ⟨by decide, ?_⟩
  rw [enhanced_run_blocks (fun _ => Except.ok "done")
    emptyEngineState defaultSecurityConfig "" (by decide)]
  decide


end SqlAgent
